import Mathlib

/-!
Verification development for the GTR_Framework forward renderer
(`src/pipeline/renderer.cpp` and `data/shader_atlas.glsl`).

The lighting pipeline is embedded shallowly over `ℚ`:
* GPU fragment programs (`no_light.fs`, `light_multi.fs`, `light_single.fs`)
  become pure functions from uniform records and per-fragment inputs to an
  optional output color (`none` models `discard`);
* the CPU side of `Renderer::renderMeshWithMaterialLight` becomes a pure
  function that threads the OpenGL state register set, counts draw calls and
  folds the per-light passes over the frame's light list;
* `Renderer::generateShadowmaps` becomes a fold over the light list that
  threads the local `Camera` object and updates each light's shadow state.

Floating-point arithmetic is modelled by exact rational arithmetic.  The two
transcendental ingredients are isolated: square roots (GLSL `length`,
`normalize`) use `Rat.sqrt`, which agrees with the real square root exactly on
perfect squares — every concrete evaluation below happens at such points — and
the tangent needed by the perspective projection is threaded through the
shadow-map generator as an explicit function parameter `tanD`.
-/

namespace GTR

/-- Rational 3-component vector, standing in for the engine's `vec3`. -/
structure Vec3 where
  x : ℚ
  y : ℚ
  z : ℚ
deriving DecidableEq, Repr, Inhabited

/-- Rational 4-component vector, standing in for the engine's `vec4`. -/
structure Vec4 where
  x : ℚ
  y : ℚ
  z : ℚ
  w : ℚ
deriving DecidableEq, Repr, Inhabited

def Vec3.zero : Vec3 := ⟨0, 0, 0⟩

def Vec3.add (a b : Vec3) : Vec3 := ⟨a.x + b.x, a.y + b.y, a.z + b.z⟩

def Vec3.sub (a b : Vec3) : Vec3 := ⟨a.x - b.x, a.y - b.y, a.z - b.z⟩

def Vec3.neg (a : Vec3) : Vec3 := ⟨-a.x, -a.y, -a.z⟩

/-- Scalar times vector (GLSL `float * vec3`). -/
def Vec3.smul (k : ℚ) (a : Vec3) : Vec3 := ⟨k * a.x, k * a.y, k * a.z⟩

/-- Componentwise product (GLSL `vec3 * vec3`). -/
def Vec3.hmul (a b : Vec3) : Vec3 := ⟨a.x * b.x, a.y * b.y, a.z * b.z⟩

def Vec3.dot (a b : Vec3) : ℚ := a.x * b.x + a.y * b.y + a.z * b.z

def Vec3.cross (a b : Vec3) : Vec3 :=
  ⟨a.y * b.z - a.z * b.y, a.z * b.x - a.x * b.z, a.x * b.y - a.y * b.x⟩

/-- GLSL `length`: the nonnegative square root of the squared norm.
`Rat.sqrt` is exact whenever the squared norm is the square of a rational,
which holds at every concrete input used in this development. -/
def Vec3.length (v : Vec3) : ℚ := Rat.sqrt (v.dot v)

/-- GLSL `normalize`.  Division by a zero length yields the zero vector
(rational division by zero is zero), matching the degenerate character of the
float result (NaNs) in that neither is a unit vector. -/
def Vec3.normalize (v : Vec3) : Vec3 := Vec3.smul (1 / v.length) v

/-- The `.xyz` swizzle. -/
def Vec4.xyz (v : Vec4) : Vec3 := ⟨v.x, v.y, v.z⟩

/-- Componentwise product (GLSL `vec4 * vec4`). -/
def Vec4.hmul (a b : Vec4) : Vec4 := ⟨a.x * b.x, a.y * b.y, a.z * b.z, a.w * b.w⟩

/-- C-style `(int)` cast of a float: truncation toward zero. -/
def truncQ (q : ℚ) : ℤ := if 0 ≤ q then ⌊q⌋ else ⌈q⌉

/-- Rational 4×4 matrix standing in for the engine's `Matrix44`,
column-vector convention (`M * v`, as used by GLSL). -/
structure Mat4 where
  m00 : ℚ
  m01 : ℚ
  m02 : ℚ
  m03 : ℚ
  m10 : ℚ
  m11 : ℚ
  m12 : ℚ
  m13 : ℚ
  m20 : ℚ
  m21 : ℚ
  m22 : ℚ
  m23 : ℚ
  m30 : ℚ
  m31 : ℚ
  m32 : ℚ
  m33 : ℚ
deriving DecidableEq, Repr, Inhabited

def Mat4.id : Mat4 :=
  ⟨1, 0, 0, 0,
   0, 1, 0, 0,
   0, 0, 1, 0,
   0, 0, 0, 1⟩

def Mat4.zero : Mat4 :=
  ⟨0, 0, 0, 0,
   0, 0, 0, 0,
   0, 0, 0, 0,
   0, 0, 0, 0⟩

/-- Matrix product, `(A.mul B) v = A (B v)`. -/
def Mat4.mul (a b : Mat4) : Mat4 :=
  ⟨a.m00 * b.m00 + a.m01 * b.m10 + a.m02 * b.m20 + a.m03 * b.m30,
   a.m00 * b.m01 + a.m01 * b.m11 + a.m02 * b.m21 + a.m03 * b.m31,
   a.m00 * b.m02 + a.m01 * b.m12 + a.m02 * b.m22 + a.m03 * b.m32,
   a.m00 * b.m03 + a.m01 * b.m13 + a.m02 * b.m23 + a.m03 * b.m33,
   a.m10 * b.m00 + a.m11 * b.m10 + a.m12 * b.m20 + a.m13 * b.m30,
   a.m10 * b.m01 + a.m11 * b.m11 + a.m12 * b.m21 + a.m13 * b.m31,
   a.m10 * b.m02 + a.m11 * b.m12 + a.m12 * b.m22 + a.m13 * b.m32,
   a.m10 * b.m03 + a.m11 * b.m13 + a.m12 * b.m23 + a.m13 * b.m33,
   a.m20 * b.m00 + a.m21 * b.m10 + a.m22 * b.m20 + a.m23 * b.m30,
   a.m20 * b.m01 + a.m21 * b.m11 + a.m22 * b.m21 + a.m23 * b.m31,
   a.m20 * b.m02 + a.m21 * b.m12 + a.m22 * b.m22 + a.m23 * b.m32,
   a.m20 * b.m03 + a.m21 * b.m13 + a.m22 * b.m23 + a.m23 * b.m33,
   a.m30 * b.m00 + a.m31 * b.m10 + a.m32 * b.m20 + a.m33 * b.m30,
   a.m30 * b.m01 + a.m31 * b.m11 + a.m32 * b.m21 + a.m33 * b.m31,
   a.m30 * b.m02 + a.m31 * b.m12 + a.m32 * b.m22 + a.m33 * b.m32,
   a.m30 * b.m03 + a.m31 * b.m13 + a.m32 * b.m23 + a.m33 * b.m33⟩

/-- Matrix applied to a column vector (GLSL `M * v`). -/
def Mat4.apply (a : Mat4) (v : Vec4) : Vec4 :=
  ⟨a.m00 * v.x + a.m01 * v.y + a.m02 * v.z + a.m03 * v.w,
   a.m10 * v.x + a.m11 * v.y + a.m12 * v.z + a.m13 * v.w,
   a.m20 * v.x + a.m21 * v.y + a.m22 * v.z + a.m23 * v.w,
   a.m30 * v.x + a.m31 * v.y + a.m32 * v.z + a.m33 * v.w⟩

/-- Two-sided invertibility of a 4×4 matrix. -/
def Mat4.invertibleM (a : Mat4) : Prop :=
  ∃ b : Mat4, Mat4.mul a b = Mat4.id ∧ Mat4.mul b a = Mat4.id

/-- Light types, per the shader defines `POINT_LIGHT 1`, `SPOT_LIGHT 2`,
`DIRECTIONAL_LIGHT 3` in `shader_atlas.glsl` (the C++ `eLightType` the
renderer casts to `int` must use the same codes for the shaders to work). -/
inductive LType where
  | point
  | spot
  | directional
deriving DecidableEq, Repr, Inhabited

/-- The integer code the CPU uploads via `(int)light->light_type` and the
shaders compare against their `#define`s. -/
def LType.toInt : LType → ℤ
  | .point => 1
  | .spot => 2
  | .directional => 3

/-- A scene light (`SCN::LightEntity`), at the level of detail the renderer
reads.  Derived quantities the renderer computes from the node transform are
carried as fields: `position` is `root.model.getTranslation()`, `frontAxis`
is `root.model.rotateVector(vec3(0,0,1))` (so the shadow generator's
`rotateVector(vec3(0,0,-1))` is its negation, by linearity of rotation), and
`coneCos` is the pair `(cos(cone_info.x·DEG2RAD), cos(cone_info.y·DEG2RAD))`
supplied as data because the cosine of an angle in degrees is not rational;
both upload paths use that same expression.  `colorI` is `color * intensity`.
`passCount` is ghost instrumentation counting the shadow passes executed for
this light (each `renderFrame` issued by the shadow generator). -/
structure Light where
  lightType : LType
  cast_shadows : Bool
  position : Vec3
  frontAxis : Vec3
  colorI : Vec3
  near_distance : ℚ
  max_distance : ℚ
  cone_info : ℚ × ℚ
  coneCos : ℚ × ℚ
  area : ℚ
  shadow_bias : ℚ
  shadowmap_fbo : Bool
  shadowmap : Bool
  fboSize : Option (ℕ × ℕ)
  shadow_viewproj : Mat4
  passCount : ℕ
deriving DecidableEq, Repr, Inhabited

/-- Material alpha modes (`SCN::eAlphaMode`). -/
inductive AlphaMode where
  | opaq
  | mask
  | blendA
deriving DecidableEq, Repr, Inhabited

/-- A material (`SCN::Material`), at the level the lit path reads.  Texture
contents are not modelled — the per-fragment sample results are inputs — but
the presence of a normal map matters (it decides `u_has_normalmap`). -/
structure Material where
  color : Vec4
  emissive_factor : Vec3
  alpha_mode : AlphaMode
  alpha_cutoff : ℚ
  two_sided : Bool
  hasNormalTexture : Bool
deriving DecidableEq, Repr, Inhabited

/-! ### Fragment-shader models (`data/shader_atlas.glsl`) -/

/-- Per-fragment inputs: the interpolated varyings from `basic.vs` and the
texture fetch results at this fragment's uv (after the CPU-side fallback to
the shared white texture for absent channels).  `perturbedN` carries the
value of `perturbNormal` for the normal-mapped branch of `light_multi.fs`,
which depends on the screen-space derivatives `dFdx`/`dFdy` and is therefore
an input rather than a computed quantity.  `shadowDepthSample` is the value
`texture(u_shadowmap, shadow_uv).x` at the uv `testShadow` computes. -/
structure FragIn where
  v_world_position : Vec3
  v_normal : Vec3
  albedoSample : Vec4
  emissiveSample : Vec3
  metallicSample : Vec4
  normalSample : Vec4
  occlusionSample : Vec4
  perturbedN : Vec3
  shadowDepthSample : ℚ
deriving DecidableEq, Repr, Inhabited

/-- The material/global uniforms shared by the three lit fragment programs. -/
structure MatUniforms where
  u_color : Vec4
  u_emissive_factor : Vec3
  u_alpha_cutoff : ℚ
  u_has_normalmap : ℚ
  u_ambient_light : Vec3
deriving DecidableEq, Repr, Inhabited

/-- The per-light uniforms of `light_multi.fs`. -/
structure LightUniforms where
  u_light_position : Vec3
  u_light_front : Vec3
  u_light_color : Vec3
  u_light_info : Vec4
  u_light_cone : ℚ × ℚ
  u_shadow_params : ℚ × ℚ
  u_shadow_viewproj : Mat4
deriving DecidableEq, Repr, Inhabited

/-- The spot-cone block shared verbatim by `light_multi.fs` and
`light_single.fs`:

    if( cos_angle < u_light_cone.y )
        att = 0.0;
    else if( cos_angle < u_light_cone.x)
        att *= 1.0 - (cos_angle - u_light_cone.x) / (u_light_cone.y - u_light_cone.x);

`cone.1` is x (inner cosine) and `cone.2` is y (outer cosine). -/
def spotConeAtt (cone : ℚ × ℚ) (cos_angle att : ℚ) : ℚ :=
  if cos_angle < cone.2 then 0
  else if cos_angle < cone.1 then att * (1 - (cos_angle - cone.1) / (cone.2 - cone.1))
  else att

/-- `testShadow` from `light_multi.fs`. -/
def testShadow (u : LightUniforms) (f : FragIn) (pos : Vec3) : ℚ :=
  let proj_pos := u.u_shadow_viewproj.apply ⟨pos.x, pos.y, pos.z, 1⟩
  let sx := proj_pos.x / proj_pos.w * (1/2) + 1/2
  let sy := proj_pos.y / proj_pos.w * (1/2) + 1/2
  let real_depth := (proj_pos.z - u.u_shadow_params.2) / proj_pos.w * (1/2) + 1/2
  if sx < 0 ∨ sx > 1 ∨ sy < 0 ∨ sy > 1 then 0
  else if real_depth < 0 ∨ real_depth > 1 then 1
  else if f.shadowDepthSample < real_depth then 0
  else 1

/-- The fragment program `no_light.fs`: ambient (scaled by the red channel of
the metallic-roughness sample) and emissive only.  `none` models `discard`. -/
def noLightFragment (m : MatUniforms) (f : FragIn) : Option Vec4 :=
  let albedo := Vec4.hmul m.u_color f.albedoSample
  if albedo.w < m.u_alpha_cutoff then none
  else
    let n0 := f.v_normal.normalize
    let _N : Vec3 := if m.u_has_normalmap = 4 then f.normalSample.xyz else n0
    let light := Vec3.add Vec3.zero (Vec3.smul f.metallicSample.x m.u_ambient_light)
    let color := Vec3.add (Vec3.hmul albedo.xyz light)
      (Vec3.hmul m.u_emissive_factor f.emissiveSample)
    some ⟨color.x, color.y, color.z, albedo.w⟩

/-- The fragment program `light_multi.fs`: one light per invocation. -/
def multiFragment (m : MatUniforms) (u : LightUniforms) (f : FragIn) : Option Vec4 :=
  let albedo := Vec4.hmul m.u_color f.albedoSample
  if albedo.w < m.u_alpha_cutoff then none
  else
    let n : Vec3 :=
      if m.u_has_normalmap = 4 then f.perturbedN else f.v_normal.normalize
    let light := Vec3.add Vec3.zero (Vec3.smul f.metallicSample.x m.u_ambient_light)
    let shadow_factor : ℚ :=
      if u.u_shadow_params.1 ≠ 0 then testShadow u f f.v_world_position else 1
    let light :=
      if truncQ u.u_light_info.x = 3 then
        let ndotl := n.dot u.u_light_front
        Vec3.add light (Vec3.smul (max ndotl 0) u.u_light_color)
      else if truncQ u.u_light_info.x = 1 ∨ truncQ u.u_light_info.x = 2 then
        let l0 := Vec3.sub u.u_light_position f.v_world_position
        let dist := l0.length
        let l := Vec3.smul (1 / dist) l0
        let ndotl := n.dot l
        let att := max 0 ((u.u_light_info.z - dist) / u.u_light_info.z)
        let att :=
          if truncQ u.u_light_info.x = 2 then
            spotConeAtt u.u_light_cone (u.u_light_front.dot l) att
          else att
        Vec3.add light (Vec3.smul (max ndotl 0 * att * shadow_factor) u.u_light_color)
      else light
    let color := Vec3.add (Vec3.hmul albedo.xyz light)
      (Vec3.hmul m.u_emissive_factor f.emissiveSample)
    some ⟨color.x, color.y, color.z, albedo.w⟩

/-- The array uniforms of `light_single.fs`, as uploaded by the singlepass
branch.  The shader declares fixed-size arrays `[MAX_LIGHTS] = [5]`; the
lists hold the entries actually written (indices past the written range are
uninitialized GL uniform storage, modelled by the `getD` defaults below and
never read because the shader guards every access by `i < u_num_lights`). -/
structure SPUniforms where
  u_light_position : List Vec3
  u_light_front : List Vec3
  u_light_color : List Vec3
  u_light_info : List Vec4
  u_light_cone : List (ℚ × ℚ)
  u_num_lights : ℤ
deriving DecidableEq, Repr, Inhabited

/-- One iteration of the `light_single.fs` light loop at slot `i`, for the
shader-computed normal `n` and fragment world position `wp`: guarded by
`i < u_num_lights`, it adds the light's contribution read from the parallel
uniform arrays. -/
def singleLoopBody (sp : SPUniforms) (n wp : Vec3) (light : Vec3) (i : ℕ) : Vec3 :=
  if (i : ℤ) < sp.u_num_lights then
    let info := sp.u_light_info.getD i default
    if truncQ info.x = 3 then
      let ndotl := n.dot (sp.u_light_front.getD i default)
      Vec3.add light (Vec3.smul (max ndotl 0) (sp.u_light_color.getD i default))
    else if truncQ info.x = 1 ∨ truncQ info.x = 2 then
      let l0 := Vec3.sub (sp.u_light_position.getD i default) wp
      let dist := l0.length
      let l := Vec3.smul (1 / dist) l0
      let ndotl := n.dot l
      let att := max 0 ((info.z - dist) / info.z)
      let att :=
        if truncQ info.x = 2 then
          spotConeAtt (sp.u_light_cone.getD i default) ((sp.u_light_front.getD i default).dot l) att
        else att
      Vec3.add light (Vec3.smul (max ndotl 0 * att) (sp.u_light_color.getD i default))
    else light
  else light

/-- The fragment program `light_single.fs`: a loop over `MAX_LIGHTS = 5`
slots, each guarded by `i < u_num_lights`.  There is no occlusion sampler and
no shadow code in this program. -/
def singleFragment (m : MatUniforms) (sp : SPUniforms) (f : FragIn) : Option Vec4 :=
  let albedo := Vec4.hmul m.u_color f.albedoSample
  if albedo.w < m.u_alpha_cutoff then none
  else
    let n : Vec3 :=
      if m.u_has_normalmap = 4 then f.normalSample.xyz else f.v_normal.normalize
    let light0 := Vec3.add Vec3.zero (Vec3.smul f.metallicSample.x m.u_ambient_light)
    let light := (List.range 5).foldl (singleLoopBody sp n f.v_world_position) light0
    let color := Vec3.add (Vec3.hmul albedo.xyz light)
      (Vec3.hmul m.u_emissive_factor f.emissiveSample)
    some ⟨color.x, color.y, color.z, albedo.w⟩

/-! ### CPU side: `Renderer::renderMeshWithMaterialLight` (renderer.cpp 329-547) -/

/-- The blend configuration selected by `glBlendFunc` while blending is
enabled: `(GL_SRC_ALPHA, GL_ONE_MINUS_SRC_ALPHA)` or `(GL_SRC_ALPHA, GL_ONE)`. -/
inductive BlendFn where
  | srcAlphaOneMinus
  | srcAlphaOne
deriving DecidableEq, Repr, Inhabited

/-- Depth comparison function (`glDepthFunc`); `GL_LESS` is the GL default. -/
inductive DepthFn where
  | less
  | lequal
deriving DecidableEq, Repr, Inhabited

/-- The slice of global OpenGL state the renderer touches: blend
enable/function, face culling, depth test/function, polygon fill-vs-line. -/
structure GLState where
  blend : Bool
  blendFn : BlendFn
  cullFace : Bool
  depthTest : Bool
  depthFunc : DepthFn
  polygonLine : Bool
deriving DecidableEq, Repr, Inhabited

/-- The GL default register values the later passes assume. -/
def GLState.default : GLState :=
  ⟨false, .srcAlphaOneMinus, false, false, .less, false⟩

/-- Applying the current blend state to a fragment result over a destination
pixel: disabled blending overwrites, `(SRC_ALPHA, ONE_MINUS_SRC_ALPHA)` is
standard alpha blending, `(SRC_ALPHA, ONE)` is additive. -/
def blendPixel (blendOn : Bool) (fn : BlendFn) (dst : Vec3) (src : Vec4) : Vec3 :=
  if blendOn then
    match fn with
    | .srcAlphaOneMinus => Vec3.add (Vec3.smul src.w src.xyz) (Vec3.smul (1 - src.w) dst)
    | .srcAlphaOne => Vec3.add (Vec3.smul src.w src.xyz) dst
  else src.xyz

/-- A draw call's effect on one pixel: `discard` leaves the destination. -/
def drawPixel (blendOn : Bool) (fn : BlendFn) (dst : Vec3) (frag : Option Vec4) : Vec3 :=
  match frag with
  | none => dst
  | some src => blendPixel blendOn fn dst src

/-- Modelled from the spec: `BoundingBoxSphereOverlap` lives in the
framework's utility library, which is outside `src/` (the spec lists the
math utilities as an external collaborator).  It is the standard
sphere-versus-axis-aligned-box intersection test: the box (given by center
and half-size) overlaps the sphere iff the squared distance from the sphere
center to the closest point of the box is at most the squared radius. -/
def BoundingBoxSphereOverlap (boxCenter boxHalf : Vec3) (center : Vec3) (radius : ℚ) : Bool :=
  let cl : ℚ → ℚ → ℚ → ℚ := fun c h p => max (c - h) (min p (c + h))
  let px := cl boxCenter.x boxHalf.x center.x
  let py := cl boxCenter.y boxHalf.y center.y
  let pz := cl boxCenter.z boxHalf.z center.z
  decide ((px - center.x) ^ 2 + (py - center.y) ^ 2 + (pz - center.z) ^ 2 ≤ radius ^ 2)

/-- The condition in the claim's and the spec's words: the mesh's bounding
sphere (center and radius) can be reached by the light's falloff radius
`max_distance`, i.e. the distance between light and sphere center is at most
`max_distance + sphere radius`.  Stated for comparison with what the code
actually computes. -/
def sphereReachable (sphereCenter : Vec3) (sphereRadius : ℚ) (lightPos : Vec3)
    (falloff : ℚ) : Bool :=
  let d := Vec3.sub lightPos sphereCenter
  decide (d.dot d ≤ (falloff + sphereRadius) ^ 2)

/-- The per-light culling test of the multipass loop (renderer.cpp 426-429):

    BoundingBoxSphereOverlap(BoundingBox(model.getTranslation(), vec3(mesh->radius)),
                             light->root.model.getTranslation(),
                             light->max_distance * 2)

A light failing it is skipped (`continue`). -/
def multipassLightDrawn (modelT : Vec3) (meshRadius : ℚ) (l : Light) : Bool :=
  BoundingBoxSphereOverlap modelT ⟨meshRadius, meshRadius, meshRadius⟩
    l.position (l.max_distance * 2)

/-- The `u_light_info` packing `vec4((int)type, (int)near, (int)far, 0)`
(note the C truncation of the two distances to `int`), as both upload paths
write it. -/
def mkLightInfo (l : Light) : Vec4 :=
  ⟨(l.lightType.toInt : ℚ), (truncQ l.near_distance : ℚ), (truncQ l.max_distance : ℚ), 0⟩

/-- Mutable state threaded through the multipass per-light loop: the
`u_ambient_light` / `u_emissive_factor` uniforms (zeroed after the first
drawn pass), the blend registers (switched to additive after the first drawn
pass), the `u_light_cone` / `u_shadow_viewproj` uniforms (only written for
spot / shadow-mapped lights, so they retain stale values otherwise — never
read by the shader in those cases), and the destination pixel. -/
structure MPState where
  ambient : Vec3
  emissive : Vec3
  blendOn : Bool
  blendFn : BlendFn
  coneU : ℚ × ℚ
  viewprojU : Mat4
  dst : Vec3
  drawn : List Light
deriving DecidableEq, Repr, Inhabited

/-- One iteration of the multipass loop (renderer.cpp 422-455) for one light,
observed at one fragment. -/
def mpStep (modelT : Vec3) (meshRadius : ℚ) (m : MatUniforms) (f : FragIn)
    (s : MPState) (l : Light) : MPState :=
  if ¬ multipassLightDrawn modelT meshRadius l then s
  else
    let coneU := if l.lightType = .spot then l.coneCos else s.coneU
    let viewprojU := if l.shadowmap then l.shadow_viewproj else s.viewprojU
    let u : LightUniforms :=
      { u_light_position := l.position
        u_light_front := l.frontAxis
        u_light_color := l.colorI
        u_light_info := mkLightInfo l
        u_light_cone := coneU
        u_shadow_params := (if l.shadowmap then 1 else 0, l.shadow_bias)
        u_shadow_viewproj := viewprojU }
    let mU := { m with u_ambient_light := s.ambient, u_emissive_factor := s.emissive }
    let dst := drawPixel s.blendOn s.blendFn s.dst (multiFragment mU u f)
    { ambient := Vec3.zero, emissive := Vec3.zero,
      blendOn := true, blendFn := .srcAlphaOne,
      coneU := coneU, viewprojU := viewprojU, dst := dst,
      drawn := s.drawn ++ [l] }

/-- The array upload of the singlepass branch (renderer.cpp 484-519): the
first `min(num_lights, MAX_LIGHTS)` lights in scene order are written into
the parallel arrays and that same count is uploaded as `u_num_lights`.
`u_light_cone` entries of non-spot lights are uninitialized stack memory in
the source, modelled as `(0, 0)` (the shader never reads them for non-spot
types).  The `u_shadow_params` / `u_shadow_viewproj` / `u_shadowmap` uploads
of this branch address uniforms that `light_single.fs` does not declare, so
they have no observable effect and are not part of the record. -/
def singlepassUniforms (lights : List Light) : SPUniforms :=
  let n : ℤ := lights.length
  let taken := lights.take (min lights.length 5)
  { u_light_position := taken.map (·.position)
    u_light_front := taken.map (·.frontAxis)
    u_light_color := taken.map (·.colorI)
    u_light_info := taken.map mkLightInfo
    u_light_cone := taken.map (fun l => if l.lightType = .spot then l.coneCos else (0, 0))
    u_num_lights := min n 5 }

/-- The shader programs the lit path can select. -/
inductive ShaderProg where
  | no_light
  | light_multipass
  | light_singlepass
deriving DecidableEq, Repr, Inhabited

/-- The observable outcome of one `renderMeshWithMaterialLight` call:
which program was selected (`none` when the function returned before the
lookup), how many draw calls were issued, which lights of the multipass loop
issued one, the destination pixel for the observed fragment, and the final
GL state. -/
structure LitResult where
  shader : Option ShaderProg
  draws : ℕ
  drawnLights : List Light
  dst : Vec3
  gl : GLState
deriving DecidableEq, Repr, Inhabited

/-- `Renderer::renderMeshWithMaterialLight` (renderer.cpp 329-547), observed
at one fragment `f` of the mesh with destination pixel `dst0` and incoming
GL state `gl0`.  `shaderPresent` models `GFX::Shader::Get` returning null
(program missing → early return).  `numVertices = 0` models the initial
nothing-to-do guard.  `ambient` is `scene->ambient_light`.  The uniform
record handed to the fragment programs applies the `MASK`-only alpha cutoff
and the `u_has_normalmap` flag exactly as the source uploads them. -/
def renderMeshWithMaterialLight (is_multipass render_wireframe : Bool)
    (shaderPresent : ShaderProg → Bool) (numVertices : ℕ)
    (mat : Material) (modelT : Vec3) (meshRadius : ℚ) (ambient : Vec3)
    (lights : List Light) (f : FragIn) (gl0 : GLState) (dst0 : Vec3) : LitResult :=
  if numVertices = 0 then ⟨none, 0, [], dst0, gl0⟩
  else
    let matBlend := mat.alpha_mode = AlphaMode.blendA
    let gl1 : GLState :=
      { gl0 with
        blend := matBlend
        blendFn := if matBlend then .srcAlphaOneMinus else gl0.blendFn
        cullFace := !mat.two_sided
        depthTest := true }
    let prog : ShaderProg :=
      if lights.length = 0 then .no_light
      else if is_multipass then .light_multipass else .light_singlepass
    if ¬ shaderPresent prog then ⟨some prog, 0, [], dst0, gl1⟩
    else
      let m : MatUniforms :=
        { u_color := mat.color
          u_emissive_factor := mat.emissive_factor
          u_alpha_cutoff := if mat.alpha_mode = AlphaMode.mask then mat.alpha_cutoff else 1/1000
          u_has_normalmap := if mat.hasNormalTexture then 4 else 0
          u_ambient_light := ambient }
      let gl2 := { gl1 with polygonLine := if render_wireframe then true else gl1.polygonLine }
      let finish : GLState → GLState := fun gl =>
        { gl with blend := false, polygonLine := false, depthFunc := .less }
      if is_multipass then
        let gl3 := { gl2 with depthFunc := .lequal }
        if lights.length = 0 then
          let dst := drawPixel gl3.blend gl3.blendFn dst0 (noLightFragment m f)
          ⟨some prog, 1, [], dst, finish gl3⟩
        else
          let s0 : MPState :=
            { ambient := ambient, emissive := mat.emissive_factor,
              blendOn := gl3.blend, blendFn := gl3.blendFn,
              coneU := (0, 0), viewprojU := Mat4.zero, dst := dst0, drawn := [] }
          let sEnd := lights.foldl (mpStep modelT meshRadius m f) s0
          ⟨some prog, sEnd.drawn.length, sEnd.drawn, sEnd.dst,
            finish { gl3 with blend := sEnd.blendOn, blendFn := sEnd.blendFn }⟩
      else
        if lights.length = 0 then
          let dst := drawPixel gl2.blend gl2.blendFn dst0 (noLightFragment m f)
          ⟨some prog, 1, [], dst, finish gl2⟩
        else
          let sp := singlepassUniforms lights
          let dst := drawPixel gl2.blend gl2.blendFn dst0 (singleFragment m sp f)
          ⟨some prog, 1, [], dst, finish gl2⟩

/-! ### Shadow generation: `Renderer::generateShadowmaps` (renderer.cpp 655-707) -/

/-- Exact componentwise vector comparison (renderer.cpp 576-579):

    bool checkVectors(vec3 vector1, vec3 vector2)
    { return vector1.x == vector2.x && vector1.y == vector2.y && vector1.z == vector2.z; }
-/
def checkVectors (v1 v2 : Vec3) : Bool :=
  v1.x == v2.x && v1.y == v2.y && v1.z == v2.z

/-- The shadow camera's up-vector selection (renderer.cpp 681):

    vec3 up = checkVectors(front, vec3(0,-1,0)) ? vec3(0, -1, 0) : vec3(0, 1, 0);
-/
def shadowCamUp (front : Vec3) : Vec3 :=
  if checkVectors front ⟨0, -1, 0⟩ then ⟨0, -1, 0⟩ else ⟨0, 1, 0⟩

/-- Modelled from the spec: `Camera::lookAt` / `Matrix44::lookAt` live in the
camera/math utility library, an external collaborator outside `src/`.  This
is the standard right-handed look-at view matrix (eye, target, up): rows are
the normalized side vector, the recomputed top vector and the negated front,
with the translation folded in. -/
def lookAtView (eye center up : Vec3) : Mat4 :=
  let f := (Vec3.sub center eye).normalize
  let s := (f.cross up).normalize
  let u := s.cross f
  ⟨s.x, s.y, s.z, -(s.dot eye),
   u.x, u.y, u.z, -(u.dot eye),
   -f.x, -f.y, -f.z, f.dot eye,
   0, 0, 0, 1⟩

/-- Modelled from the spec: the orthographic projection built by
`Camera::setOrthographic(left, right, top, bottom, near, far)` (external
math library), in the standard OpenGL form. -/
def orthoMat (l r t b n fa : ℚ) : Mat4 :=
  ⟨2 / (r - l), 0, 0, -(r + l) / (r - l),
   0, 2 / (t - b), 0, -(t + b) / (t - b),
   0, 0, -2 / (fa - n), -(fa + n) / (fa - n),
   0, 0, 0, 1⟩

/-- Modelled from the spec: the perspective projection built by
`Camera::setPerspective(fov_in_degrees, aspect, near, far)` (external math
library), in the standard OpenGL form.  The tangent of half the
field-of-view angle (in degrees) is transcendental, so it is supplied by the
explicit oracle `tanD`. -/
def perspectiveMat (tanD : ℚ → ℚ) (fov aspect n fa : ℚ) : Mat4 :=
  let fc := 1 / tanD (fov / 2)
  ⟨fc / aspect, 0, 0, 0,
   0, fc, 0, 0,
   0, 0, (fa + n) / (n - fa), 2 * fa * n / (n - fa),
   0, 0, -1, 0⟩

/-- Modelled from the spec: the state of the external `Camera` object that
`generateShadowmaps` declares locally and mutates per light.  `lookAt`
replaces the view matrix, `setPerspective`/`setOrthographic` replace the
projection matrix, and `viewprojection_matrix` is their product. -/
structure CameraState where
  view : Mat4
  proj : Mat4
deriving DecidableEq, Repr, Inhabited

def CameraState.viewproj (c : CameraState) : Mat4 := Mat4.mul c.proj c.view

/-- The body of the `generateShadowmaps` per-light loop (renderer.cpp
664-701) for one light, threading the local camera:
skip non-casting lights; lazily allocate the 1024×1024 depth-only FBO and
expose its depth texture as the light's `shadowmap`; aim the camera from the
light's position along `rotateVector(vec3(0,0,-1))` (the negated
`frontAxis`, by linearity) with `shadowCamUp`; set a perspective projection
for spot lights and an orthographic one for directional lights (point lights
touch neither branch); render the scene depth (counted by the ghost
`passCount`); store the camera's view-projection on the light. -/
def stepLight (tanD : ℚ → ℚ) (cam : CameraState) (l : Light) : Light × CameraState :=
  if ¬ l.cast_shadows then (l, cam)
  else
    let l :=
      if ¬ l.shadowmap_fbo then
        { l with shadowmap_fbo := true, shadowmap := true, fboSize := some (1024, 1024) }
      else l
    let pos := l.position
    let front := Vec3.neg l.frontAxis
    let up := shadowCamUp front
    let cam := { cam with view := lookAtView pos (pos.add front) up }
    let aspect : ℚ := 1
    let cam :=
      if l.lightType = .spot then
        { cam with proj := perspectiveMat tanD (l.cone_info.2 * 2) aspect l.near_distance l.max_distance }
      else if l.lightType = .directional then
        let halfarea := l.area / 2
        { cam with proj := orthoMat (-halfarea) halfarea (halfarea * aspect) (-halfarea * aspect) (1/10) l.max_distance }
      else cam
    let l := { l with passCount := l.passCount + 1, shadow_viewproj := cam.viewproj }
    (l, cam)

/-- The `generateShadowmaps` loop over the frame's light list, threading the
local camera across iterations. -/
def genShadowAux (tanD : ℚ → ℚ) : CameraState → List Light → List Light
  | _, [] => []
  | cam, l :: ls =>
    let r := stepLight tanD cam l
    r.1 :: genShadowAux tanD r.2 ls

/-- `Renderer::generateShadowmaps(scene)`: one shadow-generation sweep over
the light list.  `cam0` is the state of the freshly constructed local
`Camera camera;` (its default constructor belongs to the external camera
library, so it is universally quantified in the theorems below). -/
def generateShadowmaps (tanD : ℚ → ℚ) (cam0 : CameraState) (lights : List Light) : List Light :=
  genShadowAux tanD cam0 lights

/-- `n` displayed frames: the generator runs once per frame (called from
`setupScene`), each time with a fresh local camera `cam0`. -/
def runFrames (tanD : ℚ → ℚ) (cam0 : CameraState) : ℕ → List Light → List Light
  | 0, lights => lights
  | n + 1, lights => runFrames tanD cam0 n (generateShadowmaps tanD cam0 lights)

/-- A light as the scene loader creates it, before any shadow pass: no
depth FBO, null `shadowmap`, no pass executed yet. -/
def Light.fresh (l : Light) : Prop :=
  l.shadowmap_fbo = false ∧ l.shadowmap = false ∧ l.passCount = 0

/-- The C5 invariant: the `shadowmap` texture is non-null iff at least one
shadow pass has executed, and the texture exists iff its FBO does. -/
def Light.shadowInv (l : Light) : Prop :=
  (l.shadowmap = true ↔ 0 < l.passCount) ∧ l.shadowmap_fbo = l.shadowmap

/-! ### Helper lemmas -/

theorem Vec3.ext' {a b : Vec3} (hx : a.x = b.x) (hy : a.y = b.y) (hz : a.z = b.z) :
    a = b := by
  cases a; cases b; simp_all

theorem Vec3.zero_add (v : Vec3) : Vec3.add Vec3.zero v = v := by
  cases v; simp [Vec3.add, Vec3.zero]

theorem Vec3.add_zero (v : Vec3) : Vec3.add v Vec3.zero = v := by
  cases v; simp [Vec3.add, Vec3.zero]

theorem Vec3.add_comm (a b : Vec3) : Vec3.add a b = Vec3.add b a := by
  cases a; cases b; simp [Vec3.add]; refine ⟨by ring, by ring, by ring⟩

theorem Vec3.add_assoc (a b c : Vec3) :
    Vec3.add (Vec3.add a b) c = Vec3.add a (Vec3.add b c) := by
  cases a; cases b; cases c; simp [Vec3.add]; refine ⟨by ring, by ring, by ring⟩

theorem Vec3.smul_zero (k : ℚ) : Vec3.smul k Vec3.zero = Vec3.zero := by
  simp [Vec3.smul, Vec3.zero]

theorem Vec3.one_smul (v : Vec3) : Vec3.smul 1 v = v := by
  cases v; simp [Vec3.smul]

theorem Vec3.zero_smul (v : Vec3) : Vec3.smul 0 v = Vec3.zero := by
  cases v; simp [Vec3.smul, Vec3.zero]

theorem Vec3.hmul_zero (a : Vec3) : Vec3.hmul a Vec3.zero = Vec3.zero := by
  cases a; simp [Vec3.hmul, Vec3.zero]

theorem Vec3.hmul_add (a x y : Vec3) :
    Vec3.hmul a (Vec3.add x y) = Vec3.add (Vec3.hmul a x) (Vec3.hmul a y) := by
  cases a; cases x; cases y; simp [Vec3.hmul, Vec3.add]; refine ⟨by ring, by ring, by ring⟩

theorem truncQ_intCast (k : ℤ) : truncQ (k : ℚ) = k := by
  unfold truncQ
  rcases le_or_lt 0 (k : ℚ) with h | h
  · rw [if_pos h, Int.floor_intCast]
  · rw [if_neg (not_le.mpr h), Int.ceil_intCast]

theorem checkVectors_iff (a b : Vec3) : checkVectors a b = true ↔ a = b := by
  cases a; cases b
  simp [checkVectors, Vec3.mk.injEq, and_assoc]

/-- Shifting an accumulator out of an add-fold. -/
theorem foldl_add_shift (g : Light → Vec3) (l : List Light) (u v : Vec3) :
    l.foldl (fun x y => Vec3.add x (g y)) (Vec3.add u v) =
      Vec3.add u (l.foldl (fun x y => Vec3.add x (g y)) v) := by
  induction l generalizing v with
  | nil => rfl
  | cons a as ih =>
    simp only [List.foldl_cons]
    rw [Vec3.add_assoc, ih]

/-- Componentwise multiplication distributes over an add-fold. -/
theorem hmul_foldl (a : Vec3) (g : Light → Vec3) (l : List Light) (acc : Vec3) :
    Vec3.hmul a (l.foldl (fun x y => Vec3.add x (g y)) acc) =
      l.foldl (fun x y => Vec3.add x (Vec3.hmul a (g y))) (Vec3.hmul a acc) := by
  induction l generalizing acc with
  | nil => rfl
  | cons b bs ih =>
    simp only [List.foldl_cons]
    rw [← Vec3.hmul_add, ih]

/-- A guarded fold over `List.range k` collapses to the fold over
`List.range nlim` when every index at or past `nlim` is a no-op. -/
theorem range_foldl_guard {β : Type} (step : β → ℕ → β) (nlim : ℕ)
    (hstep : ∀ acc i, nlim ≤ i → step acc i = acc) :
    ∀ k, nlim ≤ k → ∀ acc, (List.range k).foldl step acc = (List.range nlim).foldl step acc := by
  intro k
  induction k with
  | zero => intro hk acc; rw [Nat.le_zero.mp hk]
  | succ j ih =>
    intro hk acc
    rcases Nat.lt_or_ge nlim (j + 1) with h | h
    · have hj : nlim ≤ j := Nat.lt_succ_iff.mp h
      rw [List.range_succ, List.foldl_append]
      simp only [List.foldl_cons, List.foldl_nil]
      rw [hstep _ j hj, ih hj]
    · have : nlim = j + 1 := le_antisymm hk h
      rw [this]

/-- A fold over `List.range l.length` that looks elements up with `getD` is a
fold over the list itself. -/
theorem range_foldl_getD {α β : Type} (d : α) (g : β → α → β) (l : List α) (acc : β) :
    (List.range l.length).foldl (fun a i => g a (l.getD i d)) acc = l.foldl g acc := by
  have hmap : (List.range l.length).map (fun i => l.getD i d) = l := by
    apply List.ext_get
    · simp
    · intro i h1 h2
      simp only [List.get_eq_getElem, List.getElem_map, List.getElem_range]
      exact List.getD_eq_getElem l d h2
  calc (List.range l.length).foldl (fun a i => g a (l.getD i d)) acc
      = ((List.range l.length).map (fun i => l.getD i d)).foldl g acc := by
        rw [List.foldl_map]
    _ = l.foldl g acc := by rw [hmap]

theorem stepLight_not_cast (tanD : ℚ → ℚ) (cam : CameraState) (l : Light)
    (h : l.cast_shadows = false) : stepLight tanD cam l = (l, cam) := by
  unfold stepLight
  rw [if_pos]
  simp [h]

theorem stepLight_cast_fields (tanD : ℚ → ℚ) (cam : CameraState) (l : Light)
    (h : l.cast_shadows = true) :
    (stepLight tanD cam l).1.shadowmap = (if l.shadowmap_fbo then l.shadowmap else true) ∧
    (stepLight tanD cam l).1.shadowmap_fbo = true ∧
    (stepLight tanD cam l).1.passCount = l.passCount + 1 ∧
    (stepLight tanD cam l).1.cast_shadows = true := by
  unfold stepLight
  rw [if_neg (by simp [h])]
  by_cases hf : l.shadowmap_fbo
  · rw [if_neg (by simp [hf])]
    split_ifs
    simp [hf, h]
  · rw [if_pos (by simp [hf])]
    split_ifs
    simp [hf, h]

theorem genShadowAux_length (tanD : ℚ → ℚ) (cam : CameraState) (ls : List Light) :
    (genShadowAux tanD cam ls).length = ls.length := by
  induction ls generalizing cam with
  | nil => rfl
  | cons l ls ih => simp [genShadowAux, ih]

theorem runFrames_length (tanD : ℚ → ℚ) (cam0 : CameraState) (n : ℕ) (ls : List Light) :
    (runFrames tanD cam0 n ls).length = ls.length := by
  induction n generalizing ls with
  | zero => rfl
  | succ m ih =>
    rw [runFrames, ih, generateShadowmaps, genShadowAux_length]

theorem genShadowAux_getD (tanD : ℚ → ℚ) (d : Light) (ls : List Light) :
    ∀ (cam : CameraState) (i : ℕ), i < ls.length →
      ∃ cam', (genShadowAux tanD cam ls).getD i d = (stepLight tanD cam' (ls.getD i d)).1 := by
  induction ls with
  | nil => intro cam i hi; simp at hi
  | cons l ls ih =>
    intro cam i hi
    cases i with
    | zero => exact ⟨cam, rfl⟩
    | succ j =>
      simp only [genShadowAux, List.getD_cons_succ]
      exact ih (stepLight tanD cam l).2 j (by simpa using hi)

/-- A per-light property closed under the shadow-pass step is preserved by a
whole generator sweep, elementwise. -/
theorem genShadowAux_pres (tanD : ℚ → ℚ) (d : Light) (P : Light → Prop)
    (hstep : ∀ cam l, P l → P (stepLight tanD cam l).1)
    (ls : List Light) (cam : CameraState) (i : ℕ) (hi : i < ls.length)
    (hP : P (ls.getD i d)) : P ((genShadowAux tanD cam ls).getD i d) := by
  obtain ⟨cam', hc⟩ := genShadowAux_getD tanD d ls cam i hi
  rw [hc]
  exact hstep cam' _ hP

/-- A per-light property closed under the shadow-pass step is preserved by
any number of displayed frames, elementwise. -/
theorem runFrames_pres (tanD : ℚ → ℚ) (cam0 : CameraState) (d : Light) (P : Light → Prop)
    (hstep : ∀ cam l, P l → P (stepLight tanD cam l).1) :
    ∀ (n : ℕ) (ls : List Light) (i : ℕ), i < ls.length → P (ls.getD i d) →
      P ((runFrames tanD cam0 n ls).getD i d) := by
  intro n
  induction n with
  | zero => intro ls i _ hP; exact hP
  | succ m ih =>
    intro ls i hi hP
    rw [runFrames]
    refine ih _ i ?_ ?_
    · rw [generateShadowmaps, genShadowAux_length]; exact hi
    · exact genShadowAux_pres tanD d P hstep ls cam0 i hi hP

theorem stepLight_pres_shadowInv (tanD : ℚ → ℚ) (cam : CameraState) (l : Light)
    (h : l.shadowInv) : (stepLight tanD cam l).1.shadowInv := by
  by_cases hc : l.cast_shadows
  · obtain ⟨hm, hfbo, hp, hcast⟩ := stepLight_cast_fields tanD cam l hc
    obtain ⟨hiff, hcouple⟩ := h
    constructor
    · rw [hm, hp]
      by_cases hf : l.shadowmap_fbo
      · rw [if_pos hf]
        have : l.shadowmap = true := by rw [← hcouple]; exact hf
        simp [this]
      · simp [hf]
    · rw [hfbo, hm]
      by_cases hf : l.shadowmap_fbo
      · rw [if_pos hf, ← hcouple]
        exact hf.symm
      · simp [hf]
  · rw [stepLight_not_cast tanD cam l (by simpa using hc)]
    exact h

/-! ### C4: shadow-camera eye, look direction and up-vector selection -/

/-- C4 counterexample: a light looking straight up (rotated front
`(0, 1, 0)`, which is parallel to world +Y).  The claim says the up vector
falls back to −Y in this case so that it is never parallel to the look
direction; the code keeps `(0, 1, 0)` — the up vector *equals* the look
direction (their cross product vanishes), so the claim is false here. -/
theorem c4_counterexample :
    shadowCamUp ⟨0, 1, 0⟩ = ⟨0, 1, 0⟩ ∧
    Vec3.cross (shadowCamUp ⟨0, 1, 0⟩) ⟨0, 1, 0⟩ = Vec3.zero := by
  constructor
  · decide
  · norm_num [shadowCamUp, checkVectors, Vec3.cross, Vec3.zero]

/-- C4 (amended): for every shadow-casting light the generator aims its
camera with eye at the light position and look direction along the rotated
local −Z axis, and selects the up vector by `shadowCamUp`; that selection
returns `(0, −1, 0)` exactly when the rotated front equals `(0, −1, 0)`
componentwise (not whenever the front is parallel to +Y), and otherwise
returns `(0, 1, 0)` — so for fronts along ±Y the chosen up vector is
parallel to the look direction and the view matrix degenerates. -/
theorem c4_amended (tanD : ℚ → ℚ) (cam : CameraState) (l : Light)
    (hc : l.cast_shadows = true) :
    ((stepLight tanD cam l).2.view =
      lookAtView l.position (l.position.add (Vec3.neg l.frontAxis))
        (shadowCamUp (Vec3.neg l.frontAxis))) ∧
    (∀ front : Vec3, shadowCamUp front = ⟨0, -1, 0⟩ ↔ front = ⟨0, -1, 0⟩) ∧
    (∀ front : Vec3, front = ⟨0, 1, 0⟩ ∨ front = ⟨0, -1, 0⟩ →
      Vec3.cross (shadowCamUp front) front = Vec3.zero) := by
  refine ⟨?_, ?_, ?_⟩
  · unfold stepLight
    rw [if_neg (by simp [hc])]
    by_cases hf : l.shadowmap_fbo
    · rw [if_neg (by simp [hf])]
      rcases hL : l.lightType <;> simp [hL]
    · rw [if_pos (by simp [hf])]
      rcases hL : l.lightType <;> simp [hL]
  · intro front
    unfold shadowCamUp
    by_cases h : checkVectors front ⟨0, -1, 0⟩
    · rw [if_pos h]
      simp [(checkVectors_iff front ⟨0, -1, 0⟩).mp h]
    · rw [if_neg h]
      constructor
      · intro he
        exact absurd he (by decide)
      · intro he
        exact absurd ((checkVectors_iff front ⟨0, -1, 0⟩).mpr he) h
  · rintro front (rfl | rfl) <;>
      norm_num [shadowCamUp, checkVectors, Vec3.cross, Vec3.zero]

/-- C4 witness: the amended theorem evaluated on a concrete spot light
looking along `(3, 0, 4)`. -/
theorem c4_witness :
    ((stepLight (fun _ => 1) ⟨Mat4.id, Mat4.id⟩
        ⟨.spot, true, ⟨0, 0, 0⟩, ⟨-3, 0, -4⟩, ⟨1, 1, 1⟩, 1, 10, (30, 45), (3/4, 1/2), 2,
          1/1000, false, false, none, Mat4.id, 0⟩).2.view =
      lookAtView ⟨0, 0, 0⟩ (Vec3.add ⟨0, 0, 0⟩ (Vec3.neg ⟨-3, 0, -4⟩))
        (shadowCamUp (Vec3.neg ⟨-3, 0, -4⟩))) ∧
    (shadowCamUp ⟨3, 0, 4⟩ = ⟨0, -1, 0⟩ ↔ (⟨3, 0, 4⟩ : Vec3) = ⟨0, -1, 0⟩) := by
  have h := c4_amended (fun _ => 1) ⟨Mat4.id, Mat4.id⟩
    ⟨.spot, true, ⟨0, 0, 0⟩, ⟨-3, 0, -4⟩, ⟨1, 1, 1⟩, 1, 10, (30, 45), (3/4, 1/2), 2,
      1/1000, false, false, none, Mat4.id, 0⟩ rfl
  exact ⟨h.1, h.2.1 ⟨3, 0, 4⟩⟩

theorem ratSqrt_zero : Rat.sqrt 0 = 0 := by norm_num

theorem ratSqrt_one : Rat.sqrt 1 = 1 := by norm_num

/-- The `shadow_viewproj` a directional shadow-casting light receives from
`stepLight`: the orthographic projection times the look-at view. -/
theorem stepLight_dir_viewproj (tanD : ℚ → ℚ) (cam : CameraState) (l : Light)
    (hd : l.lightType = .directional) (hc : l.cast_shadows = true) :
    (stepLight tanD cam l).1.shadow_viewproj =
      Mat4.mul
        (orthoMat (-(l.area / 2)) (l.area / 2) (l.area / 2 * 1) (-(l.area / 2) * 1)
          (1/10) l.max_distance)
        (lookAtView l.position (l.position.add (Vec3.neg l.frontAxis))
          (shadowCamUp (Vec3.neg l.frontAxis))) := by
  unfold stepLight
  rw [if_neg (by simp [hc])]
  by_cases hf : l.shadowmap_fbo
  · rw [if_neg (by simp [hf])]
    simp [hd, CameraState.viewproj]
  · rw [if_pos (by simp [hf])]
    simp [hd, CameraState.viewproj]

/-! ### C5: shadowmap nullity invariant and validity of `shadow_viewproj` -/

/-- A shadow-casting directional light aimed straight up: `rotateVector`
of the local −Z gives the world +Y axis. -/
def c5Light : Light :=
  ⟨.directional, true, ⟨0, 0, 0⟩, ⟨0, -1, 0⟩, ⟨1, 1, 1⟩, 1, 10, (30, 45), (3/4, 1/2), 2,
    1/1000, false, false, none, Mat4.id, 0⟩

/-- The state of `c5Light` after one `generateShadowmaps` sweep. -/
def c5After : Light :=
  (generateShadowmaps (fun _ => 1) ⟨Mat4.id, Mat4.id⟩ [c5Light]).headI

/-- C5 counterexample: for the shadow-casting light `c5Light` (aimed along
world +Y), one generator call does make `shadowmap` non-null, but the
recorded `shadow_viewproj` is NOT invertible: the look direction is parallel
to the chosen up vector, the look-at basis degenerates (zero side/top rows),
the view matrix gets a zero column and so does the stored view-projection
product — no matrix left-multiplies it to the identity. -/
theorem c5_counterexample :
    c5After.shadowmap = true ∧ ¬ Mat4.invertibleM c5After.shadow_viewproj := by
  have hAfter : c5After = (stepLight (fun _ => 1) ⟨Mat4.id, Mat4.id⟩ c5Light).1 := rfl
  have hview : lookAtView c5Light.position
      (c5Light.position.add (Vec3.neg c5Light.frontAxis))
      (shadowCamUp (Vec3.neg c5Light.frontAxis)) =
      ⟨0, 0, 0, 0, 0, 0, 0, 0, 0, -1, 0, 0, 0, 0, 0, 1⟩ := by
    norm_num [c5Light, lookAtView, shadowCamUp, checkVectors, Vec3.normalize, Vec3.length,
      Vec3.dot, Vec3.cross, Vec3.sub, Vec3.add, Vec3.neg, Vec3.smul, ratSqrt_zero,
      ratSqrt_one]
  have hvp := stepLight_dir_viewproj (fun _ => 1) ⟨Mat4.id, Mat4.id⟩ c5Light rfl rfl
  rw [hview] at hvp
  have hcol : c5After.shadow_viewproj.m00 = 0 ∧ c5After.shadow_viewproj.m10 = 0 ∧
      c5After.shadow_viewproj.m20 = 0 ∧ c5After.shadow_viewproj.m30 = 0 := by
    rw [hAfter, hvp]
    norm_num [c5Light, orthoMat, Mat4.mul]
  constructor
  · decide
  · rintro ⟨B, _, h2⟩
    have h := congrArg Mat4.m00 h2
    rw [show (Mat4.mul B c5After.shadow_viewproj).m00 =
        B.m00 * c5After.shadow_viewproj.m00 + B.m01 * c5After.shadow_viewproj.m10 +
        B.m02 * c5After.shadow_viewproj.m20 + B.m03 * c5After.shadow_viewproj.m30 from rfl] at h
    rw [hcol.1, hcol.2.1, hcol.2.2.1, hcol.2.2.2] at h
    norm_num [Mat4.id] at h

/-- C5 (amended): over any number of displayed frames, a light that was
fresh at scene load satisfies: with `cast_shadows = false` its record (in
particular its null `shadowmap`) is never touched; with `cast_shadows =
true` its `shadowmap` is non-null after the first frame; and the invariant
"`shadowmap` is non-null iff at least one shadow pass has executed" holds —
but the recorded `shadow_viewproj` need not be invertible (see the
counterexample: a light aimed along ±Y stores a singular matrix). -/
theorem c5_amended (tanD : ℚ → ℚ) (cam0 : CameraState) (n : ℕ) (lights : List Light)
    (i : ℕ) (hi : i < lights.length) (hf : (lights.getD i default).fresh) :
    ((lights.getD i default).cast_shadows = false →
      (runFrames tanD cam0 n lights).getD i default = lights.getD i default) ∧
    ((lights.getD i default).cast_shadows = true → 1 ≤ n →
      ((runFrames tanD cam0 n lights).getD i default).shadowmap = true) ∧
    (((runFrames tanD cam0 n lights).getD i default).shadowmap = true ↔
      0 < ((runFrames tanD cam0 n lights).getD i default).passCount) := by
  obtain ⟨hfbo, hsm, hpc⟩ := hf
  refine ⟨?_, ?_, ?_⟩
  · intro hcast
    exact runFrames_pres tanD cam0 default (fun x => x = lights.getD i default)
      (by
        intro cam l hl
        rw [hl, stepLight_not_cast tanD cam _ hcast])
      n lights i hi rfl
  · intro hcast hn
    obtain ⟨m, rfl⟩ : ∃ m, n = m + 1 := ⟨n - 1, (Nat.succ_pred_eq_of_pos hn).symm⟩
    rw [runFrames]
    have hstep1 : ((generateShadowmaps tanD cam0 lights).getD i default).shadowmap = true ∧
        ((generateShadowmaps tanD cam0 lights).getD i default).shadowmap_fbo = true ∧
        ((generateShadowmaps tanD cam0 lights).getD i default).cast_shadows = true := by
      obtain ⟨cam', hc⟩ := genShadowAux_getD tanD default lights cam0 i hi
      rw [generateShadowmaps, hc]
      obtain ⟨h1, h2, _, h4⟩ := stepLight_cast_fields tanD cam' _ hcast
      exact ⟨by rw [h1, hfbo]; simp, h2, h4⟩
    have hlen : i < (generateShadowmaps tanD cam0 lights).length := by
      rw [generateShadowmaps, genShadowAux_length]; exact hi
    have := runFrames_pres tanD cam0 default
      (fun x => x.shadowmap = true ∧ x.shadowmap_fbo = true ∧ x.cast_shadows = true)
      (by
        intro cam l hl
        obtain ⟨h1, h2, _, h4⟩ := stepLight_cast_fields tanD cam l hl.2.2
        exact ⟨by rw [h1, hl.2.1]; simp [hl.1], h2, h4⟩)
      m _ i hlen hstep1
    exact this.1
  · have hinv : (lights.getD i default).shadowInv := by
      constructor
      · rw [hsm, hpc]; simp
      · rw [hfbo, hsm]
    have := runFrames_pres tanD cam0 default Light.shadowInv
      (fun cam l hl => stepLight_pres_shadowInv tanD cam l hl) n lights i hi hinv
    exact this.1

/-- A fresh shadow-casting point light used to instantiate the C5 theorem. -/
def c5wLight : Light :=
  ⟨.point, true, ⟨1, 2, 3⟩, ⟨0, 0, 1⟩, ⟨1, 1, 1⟩, 1, 10, (30, 45), (3/4, 1/2), 2,
    1/1000, false, false, none, Mat4.id, 0⟩

/-- C5 witness: the amended theorem applied to a one-light scene over one
frame. -/
theorem c5_witness :
    ((runFrames (fun _ => 1) ⟨Mat4.id, Mat4.id⟩ 1 [c5wLight]).getD 0 default).shadowmap = true ∧
    (((runFrames (fun _ => 1) ⟨Mat4.id, Mat4.id⟩ 1 [c5wLight]).getD 0 default).shadowmap = true ↔
      0 < ((runFrames (fun _ => 1) ⟨Mat4.id, Mat4.id⟩ 1 [c5wLight]).getD 0 default).passCount) := by
  have h := c5_amended (fun _ => 1) ⟨Mat4.id, Mat4.id⟩ 1 [c5wLight] 0 (by decide)
    (by refine ⟨?_, ?_, ?_⟩ <;> decide)
  exact ⟨h.2.1 (by decide) (by decide), h.2.2⟩

/-! ### C10: point lights take neither projection branch in the generator -/

/-- C10 (confirmed): a shadow-casting point light is not skipped by the
shadow generator — its 1024×1024 depth FBO is allocated, a full depth render
pass runs, and a `shadow_viewproj` is stored — yet neither the perspective
nor the orthographic branch executes, so the stored matrix combines the
fresh look-at view with whatever projection the generator's local camera was
already holding (`cam.proj`): the projection configured for an earlier
spot/directional light in the same call, or the camera's default state if
the point light comes first. -/
theorem c10_confirmed (tanD : ℚ → ℚ) (cam : CameraState) (l : Light)
    (hp : l.lightType = .point) (hc : l.cast_shadows = true)
    (hfbo : l.shadowmap_fbo = false) :
    (stepLight tanD cam l).1.shadowmap = true ∧
    (stepLight tanD cam l).1.fboSize = some (1024, 1024) ∧
    (stepLight tanD cam l).1.passCount = l.passCount + 1 ∧
    (stepLight tanD cam l).2.proj = cam.proj ∧
    (stepLight tanD cam l).1.shadow_viewproj =
      Mat4.mul cam.proj
        (lookAtView l.position (l.position.add (Vec3.neg l.frontAxis))
          (shadowCamUp (Vec3.neg l.frontAxis))) := by
  unfold stepLight
  rw [if_neg (by simp [hc]), if_pos (by simp [hfbo])]
  simp [hp, CameraState.viewproj]

/-- C10 witness: the theorem applied to a concrete fresh point light and a
concrete inherited camera. -/
theorem c10_witness :
    (stepLight (fun _ => 1) ⟨Mat4.id, Mat4.zero⟩ c5wLight).1.shadowmap = true ∧
    (stepLight (fun _ => 1) ⟨Mat4.id, Mat4.zero⟩ c5wLight).1.fboSize = some (1024, 1024) ∧
    (stepLight (fun _ => 1) ⟨Mat4.id, Mat4.zero⟩ c5wLight).1.passCount = 0 + 1 ∧
    (stepLight (fun _ => 1) ⟨Mat4.id, Mat4.zero⟩ c5wLight).2.proj = Mat4.zero ∧
    (stepLight (fun _ => 1) ⟨Mat4.id, Mat4.zero⟩ c5wLight).1.shadow_viewproj =
      Mat4.mul Mat4.zero
        (lookAtView c5wLight.position (c5wLight.position.add (Vec3.neg c5wLight.frontAxis))
          (shadowCamUp (Vec3.neg c5wLight.frontAxis))) := by
  exact c10_confirmed (fun _ => 1) ⟨Mat4.id, Mat4.zero⟩ c5wLight rfl rfl rfl

/-! ### C8: spot-light cone attenuation -/

/-- C8 counterexample: a degenerate spot light whose inner and outer cone
cosines coincide (`cone_info` inner = outer).  At a fragment whose cos-angle
equals the outer cone cosine the claim demands attenuation 0, but the code
takes neither `if` branch (`cos_angle < outer` and `cos_angle < inner` are
both false) and passes the pre-cone attenuation through unchanged. -/
theorem c8_counterexample : spotConeAtt (1/2, 1/2) (1/2) 1 = 1 ∧ (1 : ℚ) ≠ 0 := by
  constructor
  · norm_num [spotConeAtt]
  · norm_num

/-- C8 (amended): for every spot light whose outer cone cosine is strictly
below its inner cone cosine (i.e. a non-degenerate cone), the shader's cone
block yields 0 at cos-angle = outer cosine, the unmodified pre-cone
attenuation at cos-angle = inner cosine, and the linear interpolation
`(1-t)·0 + t·att` with `t = (c - outer)/(inner - outer)` strictly between. -/
theorem c8_amended (cone : ℚ × ℚ) (att : ℚ) (h : cone.2 < cone.1) :
    spotConeAtt cone cone.2 att = 0 ∧
    spotConeAtt cone cone.1 att = att ∧
    ∀ c : ℚ, cone.2 < c → c < cone.1 →
      spotConeAtt cone c att =
        (1 - (c - cone.2) / (cone.1 - cone.2)) * 0 +
          (c - cone.2) / (cone.1 - cone.2) * att := by
  have hne : cone.2 - cone.1 ≠ 0 := sub_ne_zero.mpr (ne_of_lt h)
  have hne' : cone.1 - cone.2 ≠ 0 := sub_ne_zero.mpr (ne_of_gt h)
  refine ⟨?_, ?_, ?_⟩
  · unfold spotConeAtt
    rw [if_neg (lt_irrefl _), if_pos h, div_self hne]
    ring
  · unfold spotConeAtt
    rw [if_neg (not_lt.mpr h.le), if_neg (lt_irrefl _)]
  · intro c h1 h2
    unfold spotConeAtt
    rw [if_neg (not_lt.mpr h1.le), if_pos h2]
    field_simp
    ring

/-- C8 witness: the amended theorem at cone cosines (inner, outer) =
(3/4, 1/2), pre-cone attenuation 2, and in-between cos-angle 5/8. -/
theorem c8_witness :
    spotConeAtt (3/4, 1/2) (1/2) 2 = 0 ∧
    spotConeAtt (3/4, 1/2) (3/4) 2 = 2 ∧
    spotConeAtt (3/4, 1/2) (5/8) 2 =
      (1 - ((5:ℚ)/8 - 1/2) / (3/4 - 1/2)) * 0 + ((5:ℚ)/8 - 1/2) / (3/4 - 1/2) * 2 := by
  have h := c8_amended (3/4, 1/2) 2 (by norm_num)
  exact ⟨h.1, h.2.1, h.2.2 (5/8) (by norm_num) (by norm_num)⟩

/-! ### C2: the ambient term of every lit shading path -/

/-- Concrete fragment for the C2 counterexample: occlusion sample all-ones,
metallic-roughness sample with red channel 1/2. -/
def c2Frag : FragIn :=
  ⟨⟨0, 0, 0⟩, ⟨0, 0, 1⟩, ⟨1, 1, 1, 1⟩, ⟨0, 0, 0⟩, ⟨1/2, 1, 1, 1⟩, ⟨0, 0, 0, 0⟩,
   ⟨1, 1, 1, 1⟩, ⟨0, 0, 0⟩, 0⟩

/-- Material/global uniforms for the C2 counterexample: white base color,
no emissive, ambient light (1,1,1), no normal map. -/
def c2Mat : MatUniforms := ⟨⟨1, 1, 1, 1⟩, ⟨0, 0, 0⟩, 1/1000, 0, ⟨1, 1, 1⟩⟩

/-- A directional light with color 0 and shadows off (isolates the ambient
term in the multipass program). -/
def c2LightU : LightUniforms :=
  ⟨⟨0, 0, 0⟩, ⟨0, 0, 1⟩, ⟨0, 0, 0⟩, ⟨3, 1, 10, 0⟩, (3/4, 1/2), (0, 0), Mat4.id⟩

/-- C2 counterexample: at a fragment whose occlusion sample is (1,1,1,1) but
whose metallic-roughness sample has red channel 1/2, all three lit fragment
programs output ambient contribution (1/2,1/2,1/2) — the ambient light
(1,1,1) scaled by the METALLIC red channel — which differs from the claimed
ambient × occlusion-sample = (1,1,1). -/
theorem c2_counterexample :
    noLightFragment c2Mat c2Frag = some ⟨1/2, 1/2, 1/2, 1⟩ ∧
    multiFragment c2Mat c2LightU c2Frag = some ⟨1/2, 1/2, 1/2, 1⟩ ∧
    singleFragment c2Mat ⟨[], [], [], [], [], 0⟩ c2Frag = some ⟨1/2, 1/2, 1/2, 1⟩ ∧
    Vec3.smul c2Frag.occlusionSample.x c2Mat.u_ambient_light ≠ ⟨1/2, 1/2, 1/2⟩ := by
  refine ⟨?_, ?_, ?_, ?_⟩
  · norm_num [noLightFragment, c2Mat, c2Frag, Vec4.hmul, Vec4.xyz, Vec3.add, Vec3.zero,
      Vec3.smul, Vec3.hmul, Vec3.normalize, Vec3.length, Vec3.dot, ratSqrt_one]
  · norm_num [multiFragment, c2Mat, c2Frag, c2LightU, Vec4.hmul, Vec4.xyz, Vec3.add,
      Vec3.zero, Vec3.smul, Vec3.hmul, Vec3.normalize, Vec3.length, Vec3.dot, truncQ,
      ratSqrt_one]
  · norm_num [singleFragment, singleLoopBody, c2Mat, c2Frag, List.range_succ, Vec4.hmul,
      Vec4.xyz, Vec3.add, Vec3.zero, Vec3.smul, Vec3.hmul, Vec3.normalize, Vec3.length,
      Vec3.dot, ratSqrt_one]
  · norm_num [c2Mat, c2Frag, Vec3.smul, Vec3.mk.injEq]

/-- C2 (amended): in every lit fragment program the ambient term equals the
scene ambient light scaled by the red channel of the metallic-roughness
texture sample (`u_ambient_light * metalic.r`), not by the occlusion sample.
Isolated by zero light color (multipass), zero light count (singlepass) and
the no-light program, where the whole lit output is
albedo·(ambient·metallic.r) + emissive·emissive-sample. -/
theorem c2_amended (m : MatUniforms) (f : FragIn) (u : LightUniforms)
    (hcut : ¬ (Vec4.hmul m.u_color f.albedoSample).w < m.u_alpha_cutoff)
    (hc : u.u_light_color = Vec3.zero) (hs : u.u_shadow_params.1 = 0) :
    noLightFragment m f =
      some ⟨(Vec3.add (Vec3.hmul (Vec4.hmul m.u_color f.albedoSample).xyz
              (Vec3.smul f.metallicSample.x m.u_ambient_light))
            (Vec3.hmul m.u_emissive_factor f.emissiveSample)).x,
            (Vec3.add (Vec3.hmul (Vec4.hmul m.u_color f.albedoSample).xyz
              (Vec3.smul f.metallicSample.x m.u_ambient_light))
            (Vec3.hmul m.u_emissive_factor f.emissiveSample)).y,
            (Vec3.add (Vec3.hmul (Vec4.hmul m.u_color f.albedoSample).xyz
              (Vec3.smul f.metallicSample.x m.u_ambient_light))
            (Vec3.hmul m.u_emissive_factor f.emissiveSample)).z,
            (Vec4.hmul m.u_color f.albedoSample).w⟩ ∧
    multiFragment m u f = noLightFragment m f ∧
    singleFragment m ⟨[], [], [], [], [], 0⟩ f = noLightFragment m f := by
  have hnl : noLightFragment m f =
      some ⟨(Vec3.add (Vec3.hmul (Vec4.hmul m.u_color f.albedoSample).xyz
              (Vec3.smul f.metallicSample.x m.u_ambient_light))
            (Vec3.hmul m.u_emissive_factor f.emissiveSample)).x,
            (Vec3.add (Vec3.hmul (Vec4.hmul m.u_color f.albedoSample).xyz
              (Vec3.smul f.metallicSample.x m.u_ambient_light))
            (Vec3.hmul m.u_emissive_factor f.emissiveSample)).y,
            (Vec3.add (Vec3.hmul (Vec4.hmul m.u_color f.albedoSample).xyz
              (Vec3.smul f.metallicSample.x m.u_ambient_light))
            (Vec3.hmul m.u_emissive_factor f.emissiveSample)).z,
            (Vec4.hmul m.u_color f.albedoSample).w⟩ := by
    unfold noLightFragment
    rw [if_neg hcut, Vec3.zero_add]
  refine ⟨hnl, ?_, ?_⟩
  · unfold multiFragment noLightFragment
    rw [if_neg hcut, if_neg hcut]
    rw [hc, hs]
    simp only [Vec3.smul, Vec3.zero, mul_zero, ne_eq, not_true_eq_false, if_false,
      ite_self]
    split_ifs <;> simp [Vec3.add, Vec3.zero]
  · unfold singleFragment noLightFragment
    rw [if_neg hcut, if_neg hcut]
    norm_num [List.range_succ, singleLoopBody]

/-- C2 witness: the amended theorem evaluated at the counterexample
fragment. -/
theorem c2_witness :
    multiFragment c2Mat c2LightU c2Frag = noLightFragment c2Mat c2Frag ∧
    singleFragment c2Mat ⟨[], [], [], [], [], 0⟩ c2Frag = noLightFragment c2Mat c2Frag := by
  have h := c2_amended c2Mat c2Frag c2LightU
    (by norm_num [c2Mat, c2Frag, Vec4.hmul]) (by norm_num [c2LightU, Vec3.zero])
    (by norm_num [c2LightU])
  exact ⟨h.2.1, h.2.2⟩

/-! ### C7: the zero-light frame -/

/-- C7 counterexample: with zero visible lights, an occlusion sample of
(1,1,1,1) and a metallic-roughness sample with red channel 1/2, the one
no-light draw writes ambient·(metallic.r) = (1/2,1/2,1/2), not the claimed
ambient·occlusion + emissive = (1,1,1). -/
theorem c7_counterexample :
    (renderMeshWithMaterialLight true false (fun _ => true) 3
      ⟨⟨1, 1, 1, 1⟩, ⟨0, 0, 0⟩, .opaq, 1/2, false, false⟩ ⟨0, 0, 0⟩ 1 ⟨1, 1, 1⟩ [] c2Frag
      GLState.default ⟨0, 0, 0⟩).dst = ⟨1/2, 1/2, 1/2⟩ ∧
    Vec3.add (Vec3.hmul ⟨1, 1, 1⟩ c2Frag.occlusionSample.xyz)
      (Vec3.hmul ⟨0, 0, 0⟩ c2Frag.emissiveSample) ≠ ⟨1/2, 1/2, 1/2⟩ := by
  constructor
  · norm_num [renderMeshWithMaterialLight, noLightFragment, drawPixel, blendPixel,
      c2Frag, Vec4.hmul, Vec4.xyz, Vec3.add, Vec3.zero, Vec3.smul, Vec3.hmul,
      Vec3.normalize, Vec3.length, Vec3.dot, ratSqrt_one, GLState.default,
      show (AlphaMode.opaq = AlphaMode.mask) = False from by simp,
      show (AlphaMode.opaq = AlphaMode.blendA) = False from by simp]
  · norm_num [c2Frag, Vec4.xyz, Vec3.hmul, Vec3.add, Vec3.mk.injEq]

/-- C7 (amended): with an empty visible-light list the lit path selects the
`no_light` program and behaves identically for both values of the
`is_multipass` toggle; when the program is present it issues exactly one
draw call, and for an opaque, non-discarded fragment the written pixel is
albedo·(ambient·metallic.r) + emissive·emissive-sample (the ambient scale is
the metallic-roughness red channel, not the occlusion sample). -/
theorem c7_amended (mp wf : Bool) (spr : ShaderProg → Bool) (nv : ℕ) (mat : Material)
    (mt : Vec3) (r : ℚ) (amb : Vec3) (f : FragIn) (gl0 : GLState) (dst0 : Vec3)
    (hnv : nv ≠ 0) :
    (renderMeshWithMaterialLight mp wf spr nv mat mt r amb [] f gl0 dst0).shader =
      some ShaderProg.no_light ∧
    renderMeshWithMaterialLight true wf spr nv mat mt r amb [] f gl0 dst0 =
      renderMeshWithMaterialLight false wf spr nv mat mt r amb [] f gl0 dst0 ∧
    (spr .no_light = true →
      (renderMeshWithMaterialLight mp wf spr nv mat mt r amb [] f gl0 dst0).draws = 1) ∧
    (spr .no_light = true → mat.alpha_mode = AlphaMode.opaq →
      ¬ (Vec4.hmul mat.color f.albedoSample).w < (1/1000 : ℚ) →
      (renderMeshWithMaterialLight mp wf spr nv mat mt r amb [] f gl0 dst0).dst =
        Vec3.add (Vec3.hmul (Vec4.hmul mat.color f.albedoSample).xyz
            (Vec3.smul f.metallicSample.x amb))
          (Vec3.hmul mat.emissive_factor f.emissiveSample)) := by
  refine ⟨?_, ?_, ?_, ?_⟩
  · cases mp <;>
      (unfold renderMeshWithMaterialLight
       rw [if_neg hnv]
       simp only [List.length_nil]
       split_ifs <;> rfl)
  · unfold renderMeshWithMaterialLight
    rw [if_neg hnv, if_neg hnv]
    simp only [List.length_nil]
    split_ifs <;> rfl
  · intro hs
    cases mp <;>
      (unfold renderMeshWithMaterialLight
       rw [if_neg hnv]
       simp only [List.length_nil]
       rw [if_neg (by simp [hs])]
       rfl)
  · intro hs hop hw
    have hcut : ¬ (Vec4.hmul mat.color f.albedoSample).w <
        (if mat.alpha_mode = AlphaMode.mask then mat.alpha_cutoff else 1/1000) := by
      rw [hop]
      simpa using hw
    rw [one_div] at hw
    cases mp <;>
      (unfold renderMeshWithMaterialLight
       rw [if_neg hnv]
       simp only [List.length_nil]
       rw [if_neg (by simp [hs])]
       simp [hop, noLightFragment, drawPixel, blendPixel, if_neg hcut, Vec3.zero_add,
         show (AlphaMode.opaq = AlphaMode.mask) = False from by simp,
         show (AlphaMode.opaq = AlphaMode.blendA) = False from by simp]
       rw [if_neg hw]
       rfl)

/-- C7 witness: the amended theorem at the counterexample inputs. -/
theorem c7_witness :
    (renderMeshWithMaterialLight true false (fun _ => true) 3
      ⟨⟨1, 1, 1, 1⟩, ⟨0, 0, 0⟩, .opaq, 1/2, false, false⟩ ⟨0, 0, 0⟩ 1 ⟨1, 1, 1⟩ [] c2Frag
      GLState.default ⟨0, 0, 0⟩).shader = some ShaderProg.no_light ∧
    (renderMeshWithMaterialLight true false (fun _ => true) 3
      ⟨⟨1, 1, 1, 1⟩, ⟨0, 0, 0⟩, .opaq, 1/2, false, false⟩ ⟨0, 0, 0⟩ 1 ⟨1, 1, 1⟩ [] c2Frag
      GLState.default ⟨0, 0, 0⟩).draws = 1 ∧
    (renderMeshWithMaterialLight true false (fun _ => true) 3
      ⟨⟨1, 1, 1, 1⟩, ⟨0, 0, 0⟩, .opaq, 1/2, false, false⟩ ⟨0, 0, 0⟩ 1 ⟨1, 1, 1⟩ [] c2Frag
      GLState.default ⟨0, 0, 0⟩).dst =
      Vec3.add (Vec3.hmul (Vec4.hmul ⟨1, 1, 1, 1⟩ c2Frag.albedoSample).xyz
          (Vec3.smul c2Frag.metallicSample.x ⟨1, 1, 1⟩))
        (Vec3.hmul ⟨0, 0, 0⟩ c2Frag.emissiveSample) := by
  have h := c7_amended true false (fun _ => true) 3
    ⟨⟨1, 1, 1, 1⟩, ⟨0, 0, 0⟩, .opaq, 1/2, false, false⟩ ⟨0, 0, 0⟩ 1 ⟨1, 1, 1⟩ c2Frag
    GLState.default ⟨0, 0, 0⟩ (by norm_num)
  exact ⟨h.1, h.2.2.1 rfl, h.2.2.2 rfl rfl (by norm_num [c2Frag, Vec4.hmul])⟩

/-! ### C3: multipass per-light culling -/

/-- The multipass loop records a draw for exactly the lights that pass the
box-versus-sphere test, in scene order. -/
theorem mpFold_drawn (mt : Vec3) (r : ℚ) (m : MatUniforms) (f : FragIn) :
    ∀ (lights : List Light) (s : MPState),
      (lights.foldl (mpStep mt r m f) s).drawn =
        s.drawn ++ lights.filter (fun l => multipassLightDrawn mt r l) := by
  intro lights
  induction lights with
  | nil => intro s; simp
  | cons l ls ih =>
    intro s
    rw [List.foldl_cons]
    by_cases h : multipassLightDrawn mt r l
    · have hstep : (mpStep mt r m f s l).drawn = s.drawn ++ [l] := by
        simp [mpStep, h]
      rw [ih, hstep, List.filter_cons_of_pos (by simpa using h), List.append_assoc,
        List.singleton_append]
    · have hstep : mpStep mt r m f s l = s := by
        simp [mpStep, h]
      rw [hstep, ih, List.filter_cons_of_neg (by simpa using h)]

/-- C3 (amended): in the multipass path with a nonempty light list, a light
issues a draw call iff the axis-aligned box centered at the mesh's model
translation with half-extent `mesh->radius` in every axis overlaps the
sphere centered at the light of radius `max_distance * 2` — i.e. the test is
a box-versus-sphere test with TWICE the falloff radius, not the claimed
bounding-sphere-versus-`max_distance` test. -/
theorem c3_amended (wf : Bool) (spr : ShaderProg → Bool) (nv : ℕ) (mat : Material)
    (mt : Vec3) (r : ℚ) (amb : Vec3) (lights : List Light) (f : FragIn)
    (gl0 : GLState) (dst0 : Vec3) (hnv : nv ≠ 0) (hl : lights ≠ [])
    (hspr : spr ShaderProg.light_multipass = true) :
    (renderMeshWithMaterialLight true wf spr nv mat mt r amb lights f gl0 dst0).drawnLights
      = lights.filter (fun l => multipassLightDrawn mt r l) ∧
    ∀ l ∈ lights,
      (l ∈ (renderMeshWithMaterialLight true wf spr nv mat mt r amb lights f gl0
        dst0).drawnLights ↔ multipassLightDrawn mt r l = true) := by
  have hlen : ¬ lights.length = 0 := by simpa [List.length_eq_zero] using hl
  have hmain : (renderMeshWithMaterialLight true wf spr nv mat mt r amb lights f gl0
      dst0).drawnLights = lights.filter (fun l => multipassLightDrawn mt r l) := by
    unfold renderMeshWithMaterialLight
    rw [if_neg hnv]
    dsimp only
    rw [if_neg hlen]
    rw [if_neg (by simp [hspr])]
    rw [if_neg hlen]
    rw [mpFold_drawn]
    simp
  refine ⟨hmain, ?_⟩
  intro l hli
  rw [hmain]
  constructor
  · intro hmem
    exact (List.mem_filter.mp hmem).2
  · intro hdrawn
    exact List.mem_filter.mpr ⟨hli, hdrawn⟩

/-- A point light whose falloff radius (10) cannot reach the mesh's bounding
sphere (center origin, radius 1, light at distance 16), yet close enough for
the code's doubled-radius box test. -/
def c3Light : Light :=
  ⟨.point, false, ⟨16, 0, 0⟩, ⟨0, 0, 1⟩, ⟨1, 1, 1⟩, 1, 10, (30, 45), (3/4, 1/2), 2,
    1/1000, false, false, none, Mat4.id, 0⟩

/-- C3 counterexample: the claim says a light whose falloff radius cannot
reach the mesh's bounding sphere issues no draw call; `c3Light` cannot reach
the sphere (distance 16 > max_distance + radius = 11), yet the multipass
loop draws it (the code tests a box against radius `2·max_distance = 20` and
the box is at distance 15). -/
theorem c3_counterexample :
    sphereReachable ⟨0, 0, 0⟩ 1 c3Light.position c3Light.max_distance = false ∧
    (renderMeshWithMaterialLight true false (fun _ => true) 3
      ⟨⟨1, 1, 1, 1⟩, ⟨0, 0, 0⟩, .opaq, 1/2, false, false⟩ ⟨0, 0, 0⟩ 1 ⟨0, 0, 0⟩ [c3Light]
      c2Frag GLState.default ⟨0, 0, 0⟩).drawnLights = [c3Light] := by
  constructor
  · norm_num [sphereReachable, c3Light, Vec3.sub, Vec3.dot]
  · have hmain : (renderMeshWithMaterialLight true false (fun _ => true) 3
        ⟨⟨1, 1, 1, 1⟩, ⟨0, 0, 0⟩, .opaq, 1/2, false, false⟩ ⟨0, 0, 0⟩ 1 ⟨0, 0, 0⟩ [c3Light]
        c2Frag GLState.default ⟨0, 0, 0⟩).drawnLights =
        [c3Light].filter (fun l => multipassLightDrawn ⟨0, 0, 0⟩ 1 l) := by
      unfold renderMeshWithMaterialLight
      rw [if_neg (by norm_num : ¬ (3 = 0))]
      dsimp only
      rw [if_neg (show ¬ ([c3Light].length = 0) by simp)]
      rw [if_neg (by simp)]
      rw [if_neg (show ¬ ([c3Light].length = 0) by simp)]
      rw [mpFold_drawn]
      simp
    rw [hmain]
    have hd : multipassLightDrawn ⟨0, 0, 0⟩ 1 c3Light = true := by
      norm_num [multipassLightDrawn, BoundingBoxSphereOverlap, c3Light]
    simp [List.filter, hd]

/-- C3 witness: the amended theorem on a two-light scene, one light within
the doubled-radius box test and one beyond it. -/
theorem c3_witness :
    (renderMeshWithMaterialLight true false (fun _ => true) 3
      ⟨⟨1, 1, 1, 1⟩, ⟨0, 0, 0⟩, .opaq, 1/2, false, false⟩ ⟨0, 0, 0⟩ 1 ⟨0, 0, 0⟩
      [c3Light, c5wLight] c2Frag GLState.default ⟨0, 0, 0⟩).drawnLights
      = [c3Light, c5wLight].filter (fun l => multipassLightDrawn ⟨0, 0, 0⟩ 1 l) := by
  exact (c3_amended false (fun _ => true) 3
    ⟨⟨1, 1, 1, 1⟩, ⟨0, 0, 0⟩, .opaq, 1/2, false, false⟩ ⟨0, 0, 0⟩ 1 ⟨0, 0, 0⟩
    [c3Light, c5wLight] c2Frag GLState.default ⟨0, 0, 0⟩ (by norm_num) (by simp)
    rfl).1

/-! ### C9: GPU state restoration on exit paths -/

/-- C9 counterexample: a `BLEND`-mode material with the lit shader program
missing.  The function has already enabled blending when it hits the
null-shader early return, and that return restores nothing — after the call
blending is still enabled, contradicting the claim that every exit path
leaves blending disabled. -/
theorem c9_counterexample :
    (renderMeshWithMaterialLight true false (fun _ => false) 3
      ⟨⟨1, 1, 1, 1⟩, ⟨0, 0, 0⟩, .blendA, 1/2, false, false⟩ ⟨0, 0, 0⟩ 1 ⟨0, 0, 0⟩ []
      c2Frag GLState.default ⟨0, 0, 0⟩).gl.blend = true := by
  unfold renderMeshWithMaterialLight
  rw [if_neg (by norm_num : ¬ (3 = 0))]
  dsimp only
  rw [if_pos (by simp)]
  rfl

/-- C9 (amended): the lit mesh-rendering path restores blending (disabled),
polygon fill mode and the depth function (`GL_LESS`) on its normal exit, but
(a) the cull-face register is NOT restored — it is left as the material's
`two_sided` flag configured it — and (b) the early return taken when the
shader program is missing restores nothing: blending remains enabled for a
`BLEND` material and the depth/polygon registers keep whatever the function
had set so far. -/
theorem c9_amended (mp wf : Bool) (spr : ShaderProg → Bool) (nv : ℕ) (mat : Material)
    (mt : Vec3) (r : ℚ) (amb : Vec3) (lights : List Light) (f : FragIn) (gl0 : GLState)
    (dst0 : Vec3) (hnv : nv ≠ 0) :
    (spr (if lights.length = 0 then ShaderProg.no_light
        else if mp then ShaderProg.light_multipass else ShaderProg.light_singlepass) = true →
      (renderMeshWithMaterialLight mp wf spr nv mat mt r amb lights f gl0 dst0).gl.blend = false ∧
      (renderMeshWithMaterialLight mp wf spr nv mat mt r amb lights f gl0 dst0).gl.polygonLine = false ∧
      (renderMeshWithMaterialLight mp wf spr nv mat mt r amb lights f gl0 dst0).gl.depthFunc = DepthFn.less ∧
      (renderMeshWithMaterialLight mp wf spr nv mat mt r amb lights f gl0 dst0).gl.cullFace = !mat.two_sided) ∧
    (spr (if lights.length = 0 then ShaderProg.no_light
        else if mp then ShaderProg.light_multipass else ShaderProg.light_singlepass) = false →
      (renderMeshWithMaterialLight mp wf spr nv mat mt r amb lights f gl0 dst0).gl.blend =
        decide (mat.alpha_mode = AlphaMode.blendA) ∧
      (renderMeshWithMaterialLight mp wf spr nv mat mt r amb lights f gl0 dst0).gl.cullFace = !mat.two_sided ∧
      (renderMeshWithMaterialLight mp wf spr nv mat mt r amb lights f gl0 dst0).gl.polygonLine = gl0.polygonLine ∧
      (renderMeshWithMaterialLight mp wf spr nv mat mt r amb lights f gl0 dst0).gl.depthFunc = gl0.depthFunc) := by
  rcases lights with _ | ⟨l0, ls⟩
  · constructor
    · intro hsp
      simp only [List.length_nil, if_pos] at hsp
      cases mp <;>
        (unfold renderMeshWithMaterialLight
         rw [if_neg hnv]
         dsimp only
         rw [if_neg (by simp [hsp])]
         split_ifs <;> exact ⟨rfl, rfl, rfl, rfl⟩)
    · intro hsp
      simp only [List.length_nil, if_pos] at hsp
      cases mp <;>
        (unfold renderMeshWithMaterialLight
         rw [if_neg hnv]
         dsimp only
         rw [if_pos (by simp_all)]
         exact ⟨rfl, rfl, rfl, rfl⟩)
  · constructor
    · intro hsp
      rw [if_neg (by simp)] at hsp
      cases mp <;>
        (unfold renderMeshWithMaterialLight
         rw [if_neg hnv]
         dsimp only
         rw [if_neg (by simp_all)]
         split_ifs <;> exact ⟨rfl, rfl, rfl, rfl⟩)
    · intro hsp
      rw [if_neg (by simp)] at hsp
      cases mp <;>
        (unfold renderMeshWithMaterialLight
         rw [if_neg hnv]
         dsimp only
         rw [if_pos (by simp_all)]
         exact ⟨rfl, rfl, rfl, rfl⟩)

/-- C9 witness: the amended theorem on a blend-mode material in a one-light
multipass frame with the shader present. -/
theorem c9_witness :
    (renderMeshWithMaterialLight true false (fun _ => true) 3
      ⟨⟨1, 1, 1, 1⟩, ⟨0, 0, 0⟩, .blendA, 1/2, true, false⟩ ⟨0, 0, 0⟩ 1 ⟨0, 0, 0⟩ [c3Light]
      c2Frag GLState.default ⟨0, 0, 0⟩).gl.blend = false ∧
    (renderMeshWithMaterialLight true false (fun _ => true) 3
      ⟨⟨1, 1, 1, 1⟩, ⟨0, 0, 0⟩, .blendA, 1/2, true, false⟩ ⟨0, 0, 0⟩ 1 ⟨0, 0, 0⟩ [c3Light]
      c2Frag GLState.default ⟨0, 0, 0⟩).gl.depthFunc = DepthFn.less ∧
    (renderMeshWithMaterialLight true false (fun _ => true) 3
      ⟨⟨1, 1, 1, 1⟩, ⟨0, 0, 0⟩, .blendA, 1/2, true, false⟩ ⟨0, 0, 0⟩ 1 ⟨0, 0, 0⟩ [c3Light]
      c2Frag GLState.default ⟨0, 0, 0⟩).gl.cullFace = !true := by
  have h := (c9_amended true false (fun _ => true) 3
    ⟨⟨1, 1, 1, 1⟩, ⟨0, 0, 0⟩, .blendA, 1/2, true, false⟩ ⟨0, 0, 0⟩ 1 ⟨0, 0, 0⟩ [c3Light]
    c2Frag GLState.default ⟨0, 0, 0⟩ (by norm_num)).1 (by simp)
  exact ⟨h.1, h.2.2.1, h.2.2.2⟩

/-! ### C6: the singlepass five-light cap -/

/-- C6 (confirmed): the singlepass upload packs only the first
`min(n, MAX_LIGHTS) = min(n, 5)` lights in scene order and uploads that same
count as `u_num_lights`; the shader output depends only on those first five
lights, and appending a sixth light to a five-light scene leaves the shading
output unchanged. -/
theorem c6_confirmed (lights : List Light) :
    (singlepassUniforms lights).u_num_lights = min (lights.length : ℤ) 5 ∧
    (∀ (m : MatUniforms) (f : FragIn),
      singleFragment m (singlepassUniforms lights) f =
        singleFragment m (singlepassUniforms (lights.take 5)) f) ∧
    (∀ (extra : Light) (m : MatUniforms) (f : FragIn), lights.length = 5 →
      singleFragment m (singlepassUniforms (lights ++ [extra])) f =
        singleFragment m (singlepassUniforms lights) f) := by
  refine ⟨rfl, ?_, ?_⟩
  · intro m f
    have hlist : (lights.take 5).take (min (lights.take 5).length 5) =
        lights.take (min lights.length 5) := by
      rw [List.length_take, List.take_take]
      congr 1
      omega
    have hnum : min (((lights.take 5).length : ℤ)) 5 = min ((lights.length : ℤ)) 5 := by
      rw [List.length_take]
      push_cast
      omega
    have huni : singlepassUniforms (lights.take 5) = singlepassUniforms lights := by
      simp only [singlepassUniforms]
      rw [hlist, hnum]
    rw [huni]
  · intro e m f h5
    have e2 : lights.take (min lights.length 5) = lights := by
      rw [h5, show (5 : ℕ) ⊓ 5 = 5 from rfl, ← h5]
      exact List.take_length lights
    have e1 : (lights ++ [e]).take (min (lights ++ [e]).length 5) = lights := by
      have : min (lights ++ [e]).length 5 = lights.length := by
        rw [List.length_append, h5]
        rfl
      rw [this]
      exact List.take_left lights [e]
    have hnum : min (((lights ++ [e]).length : ℤ)) 5 = min ((lights.length : ℤ)) 5 := by
      rw [List.length_append, h5]
      rfl
    have huni : singlepassUniforms (lights ++ [e]) = singlepassUniforms lights := by
      simp only [singlepassUniforms]
      rw [e1, e2, hnum]
    rw [huni]

/-- C6 witness: a six-light scene (five lights plus an appended sixth) whose
singlepass shading equals that of the five-light scene, with
`u_num_lights = min 5 5`. -/
theorem c6_witness :
    singleFragment c2Mat
      (singlepassUniforms ([c3Light, c3Light, c3Light, c3Light, c3Light] ++ [c5wLight]))
      c2Frag =
      singleFragment c2Mat
        (singlepassUniforms [c3Light, c3Light, c3Light, c3Light, c3Light]) c2Frag ∧
    (singlepassUniforms [c3Light, c3Light, c3Light, c3Light, c3Light]).u_num_lights =
      min (([c3Light, c3Light, c3Light, c3Light, c3Light].length : ℤ)) 5 := by
  have h := c6_confirmed [c3Light, c3Light, c3Light, c3Light, c3Light]
  exact ⟨h.2.2 c5wLight c2Mat c2Frag rfl, h.1⟩

/-! ### C1: multipass versus singlepass equivalence -/

theorem Vec3.zero_hmul (v : Vec3) : Vec3.hmul Vec3.zero v = Vec3.zero := by
  cases v; simp [Vec3.hmul, Vec3.zero]

/-- The radiance one light adds to a fragment with (shader-computed) normal
`n` at world position `wp`, common to `light_multi.fs` (with the shadow
factor at 1) and the loop body of `light_single.fs`: directional lights
contribute `max(N·L,0)·color`, point/spot lights scale that by the linear
distance falloff and (spot) the cone factor. -/
def lightTermN (n wp : Vec3) (l : Light) : Vec3 :=
  let info := mkLightInfo l
  if truncQ info.x = 3 then Vec3.smul (max (n.dot l.frontAxis) 0) l.colorI
  else if truncQ info.x = 1 ∨ truncQ info.x = 2 then
    let l0 := Vec3.sub l.position wp
    let dist := l0.length
    let lv := Vec3.smul (1 / dist) l0
    let ndotl := n.dot lv
    let att := max 0 ((info.z - dist) / info.z)
    let att :=
      if truncQ info.x = 2 then spotConeAtt l.coneCos (l.frontAxis.dot lv) att else att
    Vec3.smul (max ndotl 0 * att) l.colorI
  else Vec3.zero

theorem truncQ_toInt (t : LType) : truncQ ((t.toInt : ℤ) : ℚ) = t.toInt :=
  truncQ_intCast t.toInt

/-- Evaluation of `light_multi.fs` with shadows off (`shadowmap` null) and
no normal map: the output is albedo·(ambient·metallic.r + per-light term) +
emissive·emissive-sample. -/
theorem multiFragment_eval (m : MatUniforms) (f : FragIn) (l : Light) (cu : ℚ × ℚ)
    (vp : Mat4) (hcone : l.lightType = .spot → cu = l.coneCos)
    (hsm : l.shadowmap = false) (hnm : m.u_has_normalmap ≠ 4)
    (hcut : ¬ (Vec4.hmul m.u_color f.albedoSample).w < m.u_alpha_cutoff) :
    multiFragment m
      { u_light_position := l.position, u_light_front := l.frontAxis,
        u_light_color := l.colorI, u_light_info := mkLightInfo l, u_light_cone := cu,
        u_shadow_params := (if l.shadowmap then 1 else 0, l.shadow_bias),
        u_shadow_viewproj := vp } f =
      some ⟨(Vec3.add (Vec3.hmul (Vec4.hmul m.u_color f.albedoSample).xyz
              (Vec3.add (Vec3.smul f.metallicSample.x m.u_ambient_light)
                (lightTermN (f.v_normal.normalize) f.v_world_position l)))
            (Vec3.hmul m.u_emissive_factor f.emissiveSample)).x,
            (Vec3.add (Vec3.hmul (Vec4.hmul m.u_color f.albedoSample).xyz
              (Vec3.add (Vec3.smul f.metallicSample.x m.u_ambient_light)
                (lightTermN (f.v_normal.normalize) f.v_world_position l)))
            (Vec3.hmul m.u_emissive_factor f.emissiveSample)).y,
            (Vec3.add (Vec3.hmul (Vec4.hmul m.u_color f.albedoSample).xyz
              (Vec3.add (Vec3.smul f.metallicSample.x m.u_ambient_light)
                (lightTermN (f.v_normal.normalize) f.v_world_position l)))
            (Vec3.hmul m.u_emissive_factor f.emissiveSample)).z,
            (Vec4.hmul m.u_color f.albedoSample).w⟩ := by
  unfold multiFragment lightTermN
  rw [if_neg hcut, if_neg hnm, hsm]
  simp only [Bool.false_eq_true, if_false, ne_eq, not_true_eq_false, not_false_eq_true,
    OfNat.zero_ne_ofNat, mkLightInfo]
  cases hL : l.lightType
  · rw [show LType.toInt .point = 1 from rfl]
    rw [show truncQ ((1 : ℤ) : ℚ) = 1 from truncQ_intCast 1]
    norm_num [Vec3.zero_add, mul_one]
  · rw [show LType.toInt .spot = 2 from rfl]
    rw [show truncQ ((2 : ℤ) : ℚ) = 2 from truncQ_intCast 2]
    rw [hcone hL]
    norm_num [Vec3.zero_add, mul_one]
  · rw [show LType.toInt .directional = 3 from rfl]
    rw [show truncQ ((3 : ℤ) : ℚ) = 3 from truncQ_intCast 3]
    norm_num [Vec3.zero_add]

theorem getD_map_lt {α β : Type} (g : α → β) (l : List α) (i : ℕ) (h : i < l.length)
    (d : β) (d' : α) : (l.map g).getD i d = g (l.getD i d') := by
  rw [List.getD_eq_getElem _ _ (by simpa using h), List.getD_eq_getElem _ _ h]
  simp

/-- Evaluation of `light_single.fs` on the uniforms the singlepass branch
uploads for at most five lights and no normal map: the output is
albedo·(ambient·metallic.r + Σ per-light terms) + emissive·emissive-sample. -/
theorem singleFragment_eval (m : MatUniforms) (f : FragIn) (lights : List Light)
    (h5 : lights.length ≤ 5) (hnm : m.u_has_normalmap ≠ 4)
    (hcut : ¬ (Vec4.hmul m.u_color f.albedoSample).w < m.u_alpha_cutoff) :
    singleFragment m (singlepassUniforms lights) f =
      some ⟨(Vec3.add (Vec3.hmul (Vec4.hmul m.u_color f.albedoSample).xyz
              (lights.foldl
                (fun a l => Vec3.add a (lightTermN (f.v_normal.normalize) f.v_world_position l))
                (Vec3.add Vec3.zero (Vec3.smul f.metallicSample.x m.u_ambient_light))))
            (Vec3.hmul m.u_emissive_factor f.emissiveSample)).x,
            (Vec3.add (Vec3.hmul (Vec4.hmul m.u_color f.albedoSample).xyz
              (lights.foldl
                (fun a l => Vec3.add a (lightTermN (f.v_normal.normalize) f.v_world_position l))
                (Vec3.add Vec3.zero (Vec3.smul f.metallicSample.x m.u_ambient_light))))
            (Vec3.hmul m.u_emissive_factor f.emissiveSample)).y,
            (Vec3.add (Vec3.hmul (Vec4.hmul m.u_color f.albedoSample).xyz
              (lights.foldl
                (fun a l => Vec3.add a (lightTermN (f.v_normal.normalize) f.v_world_position l))
                (Vec3.add Vec3.zero (Vec3.smul f.metallicSample.x m.u_ambient_light))))
            (Vec3.hmul m.u_emissive_factor f.emissiveSample)).z,
            (Vec4.hmul m.u_color f.albedoSample).w⟩ := by
  have htaken : lights.take (min lights.length 5) = lights := by
    rw [min_eq_left h5]
    exact List.take_length lights
  have hnum : min ((lights.length : ℤ)) 5 = (lights.length : ℤ) := by omega
  have harr : singlepassUniforms lights =
      { u_light_position := lights.map (·.position)
        u_light_front := lights.map (·.frontAxis)
        u_light_color := lights.map (·.colorI)
        u_light_info := lights.map mkLightInfo
        u_light_cone := lights.map (fun l => if l.lightType = .spot then l.coneCos else (0, 0))
        u_num_lights := (lights.length : ℤ) } := by
    simp only [singlepassUniforms]
    rw [htaken, hnum]
  unfold singleFragment
  rw [if_neg hcut, if_neg hnm, harr]
  dsimp only
  have hguard : ∀ (acc : Vec3) (i : ℕ), lights.length ≤ i →
      singleLoopBody
        { u_light_position := lights.map (·.position)
          u_light_front := lights.map (·.frontAxis)
          u_light_color := lights.map (·.colorI)
          u_light_info := lights.map mkLightInfo
          u_light_cone := lights.map (fun l => if l.lightType = .spot then l.coneCos else (0, 0))
          u_num_lights := (lights.length : ℤ) }
        (f.v_normal.normalize) f.v_world_position acc i = acc := by
    intro acc i hi
    unfold singleLoopBody
    rw [if_neg (by push_cast; omega)]
  rw [range_foldl_guard _ lights.length hguard 5 h5]
  rw [show lights.foldl
      (fun a l => Vec3.add a (lightTermN (f.v_normal.normalize) f.v_world_position l))
      (Vec3.add Vec3.zero (Vec3.smul f.metallicSample.x m.u_ambient_light)) =
    (List.range lights.length).foldl
      (fun a i => Vec3.add a (lightTermN (f.v_normal.normalize) f.v_world_position
        (lights.getD i default)))
      (Vec3.add Vec3.zero (Vec3.smul f.metallicSample.x m.u_ambient_light)) from
    (range_foldl_getD default _ lights _).symm]
  have hfold : ∀ acc : Vec3, (List.range lights.length).foldl
      (singleLoopBody
        { u_light_position := lights.map (·.position)
          u_light_front := lights.map (·.frontAxis)
          u_light_color := lights.map (·.colorI)
          u_light_info := lights.map mkLightInfo
          u_light_cone := lights.map (fun l => if l.lightType = .spot then l.coneCos else (0, 0))
          u_num_lights := (lights.length : ℤ) }
        (f.v_normal.normalize) f.v_world_position) acc =
      (List.range lights.length).foldl
        (fun a i => Vec3.add a (lightTermN (f.v_normal.normalize) f.v_world_position
          (lights.getD i default))) acc := by
    intro acc
    apply List.foldl_ext
    intro a i hi
    have hilt : i < lights.length := List.mem_range.mp hi
    unfold singleLoopBody
    rw [if_pos (by push_cast; omega)]
    rw [getD_map_lt mkLightInfo lights i hilt default default,
      getD_map_lt (·.frontAxis) lights i hilt default default,
      getD_map_lt (·.colorI) lights i hilt default default,
      getD_map_lt (·.position) lights i hilt default default,
      getD_map_lt (fun l => if l.lightType = .spot then l.coneCos else (0, 0))
        lights i hilt default default]
    unfold lightTermN
    unfold mkLightInfo
    cases hL : (lights.getD i default).lightType
    · norm_num [hL, LType.toInt, truncQ]
    · norm_num [hL, LType.toInt, truncQ]
    · norm_num [hL, LType.toInt, truncQ]
  rw [hfold]

theorem blendPixel_one (b : Bool) (fn : BlendFn) (dst : Vec3) (a c d w : ℚ)
    (hw : w = 1) (hfn : b = true → fn = .srcAlphaOneMinus) :
    blendPixel b fn dst ⟨a, c, d, w⟩ = ⟨a, c, d⟩ := by
  unfold blendPixel
  cases b
  · simp [Vec4.xyz]
  · rw [if_pos rfl, hfn rfl, hw]
    cases dst
    simp only [Vec4.xyz, Vec3.smul, Vec3.add, Vec3.mk.injEq]
    refine ⟨by ring, by ring, by ring⟩

theorem multiFragment_discard (m : MatUniforms) (u : LightUniforms) (f : FragIn)
    (hdis : (Vec4.hmul m.u_color f.albedoSample).w < m.u_alpha_cutoff) :
    multiFragment m u f = none := by
  unfold multiFragment
  rw [if_pos hdis]

theorem singleFragment_discard (m : MatUniforms) (sp : SPUniforms) (f : FragIn)
    (hdis : (Vec4.hmul m.u_color f.albedoSample).w < m.u_alpha_cutoff) :
    singleFragment m sp f = none := by
  unfold singleFragment
  rw [if_pos hdis]

/-- One drawn multipass iteration, evaluated: with the light's test passed,
its shadowmap null and no normal map, the pass blends the lit color (built
from the state's current ambient/emissive uniform values) over the current
pixel, switches the blend registers to additive and zeroes the
ambient/emissive uniforms. -/
theorem mpStep_eval (mt : Vec3) (r : ℚ) (m : MatUniforms) (f : FragIn) (s : MPState)
    (l : Light) (hdrawn : multipassLightDrawn mt r l = true) (hsm : l.shadowmap = false)
    (hnm : m.u_has_normalmap ≠ 4)
    (hcut : ¬ (Vec4.hmul m.u_color f.albedoSample).w < m.u_alpha_cutoff) :
    mpStep mt r m f s l =
      { ambient := Vec3.zero, emissive := Vec3.zero,
        blendOn := true, blendFn := .srcAlphaOne,
        coneU := if l.lightType = .spot then l.coneCos else s.coneU,
        viewprojU := s.viewprojU,
        dst := blendPixel s.blendOn s.blendFn s.dst
          ⟨(Vec3.add (Vec3.hmul (Vec4.hmul m.u_color f.albedoSample).xyz
              (Vec3.add (Vec3.smul f.metallicSample.x s.ambient)
                (lightTermN (f.v_normal.normalize) f.v_world_position l)))
            (Vec3.hmul s.emissive f.emissiveSample)).x,
            (Vec3.add (Vec3.hmul (Vec4.hmul m.u_color f.albedoSample).xyz
              (Vec3.add (Vec3.smul f.metallicSample.x s.ambient)
                (lightTermN (f.v_normal.normalize) f.v_world_position l)))
            (Vec3.hmul s.emissive f.emissiveSample)).y,
            (Vec3.add (Vec3.hmul (Vec4.hmul m.u_color f.albedoSample).xyz
              (Vec3.add (Vec3.smul f.metallicSample.x s.ambient)
                (lightTermN (f.v_normal.normalize) f.v_world_position l)))
            (Vec3.hmul s.emissive f.emissiveSample)).z,
            (Vec4.hmul m.u_color f.albedoSample).w⟩,
        drawn := s.drawn ++ [l] } := by
  unfold mpStep
  rw [if_neg (by simp [hdrawn])]
  dsimp only
  rw [multiFragment_eval { m with u_ambient_light := s.ambient, u_emissive_factor := s.emissive }
    f l (if l.lightType = .spot then l.coneCos else s.coneU)
    (if l.shadowmap then l.shadow_viewproj else s.viewprojU)
    (fun h => by rw [if_pos h]) hsm hnm hcut]
  rw [hsm]
  simp only [Bool.false_eq_true, if_false]
  rfl

theorem blendPixel_addOne (dst : Vec3) (a b c w : ℚ) (hw : w = 1) :
    blendPixel true .srcAlphaOne dst ⟨a, b, c, w⟩ = Vec3.add dst ⟨a, b, c⟩ := by
  show Vec3.add (Vec3.smul w ⟨a, b, c⟩) dst = Vec3.add dst ⟨a, b, c⟩
  rw [hw, Vec3.one_smul]
  exact Vec3.add_comm _ _

/-- If the fragment discards (premultiplied alpha below the cutoff), every
multipass iteration leaves the destination pixel unchanged. -/
theorem mpFold_discard (mt : Vec3) (r : ℚ) (m : MatUniforms) (f : FragIn)
    (hdis : (Vec4.hmul m.u_color f.albedoSample).w < m.u_alpha_cutoff) :
    ∀ (lights : List Light) (s : MPState),
      ((lights.foldl (mpStep mt r m f) s).dst = s.dst) := by
  intro lights
  induction lights with
  | nil => intro s; rfl
  | cons l ls ih =>
    intro s
    rw [List.foldl_cons]
    rw [ih (mpStep mt r m f s l)]
    unfold mpStep
    by_cases hd : multipassLightDrawn mt r l
    · rw [if_neg (by simp [hd])]
      dsimp only
      rw [multiFragment_discard
        { m with u_ambient_light := s.ambient, u_emissive_factor := s.emissive } _ f hdis]
      rfl
    · rw [if_pos (by simp [hd])]

/-- Multipass tail passes: once the ambient/emissive uniforms are zeroed and
the blend registers are additive, each remaining drawn light adds exactly the
albedo-modulated per-light radiance to the pixel. -/
theorem mpFold_tail (mt : Vec3) (r : ℚ) (m : MatUniforms) (f : FragIn)
    (hnm : m.u_has_normalmap ≠ 4)
    (hw : (Vec4.hmul m.u_color f.albedoSample).w = 1)
    (hcut : ¬ (Vec4.hmul m.u_color f.albedoSample).w < m.u_alpha_cutoff) :
    ∀ (lights : List Light),
      (∀ l ∈ lights, multipassLightDrawn mt r l = true) →
      (∀ l ∈ lights, l.shadowmap = false) →
      ∀ (cu : ℚ × ℚ) (vp : Mat4) (d0 : Vec3) (dr : List Light),
      (lights.foldl (mpStep mt r m f)
        ⟨Vec3.zero, Vec3.zero, true, .srcAlphaOne, cu, vp, d0, dr⟩).dst =
        lights.foldl
          (fun d l => Vec3.add d
            (Vec3.hmul (Vec4.hmul m.u_color f.albedoSample).xyz
              (lightTermN (f.v_normal.normalize) f.v_world_position l)))
          d0 := by
  intro lights
  induction lights with
  | nil =>
    intro _ _ cu vp d0 dr
    rfl
  | cons l ls ih =>
    intro hdrawn hsh cu vp d0 dr
    rw [List.foldl_cons, List.foldl_cons]
    rw [mpStep_eval mt r m f ⟨Vec3.zero, Vec3.zero, true, .srcAlphaOne, cu, vp, d0, dr⟩ l
      (hdrawn l (List.mem_cons_self l ls)) (hsh l (List.mem_cons_self l ls)) hnm hcut]
    dsimp only
    rw [ih (fun x hx => hdrawn x (List.mem_cons_of_mem l hx))
      (fun x hx => hsh x (List.mem_cons_of_mem l hx))]
    rw [blendPixel_addOne d0 _ _ _ _ hw]
    rw [Vec3.smul_zero, Vec3.zero_add, Vec3.zero_hmul, Vec3.add_zero]

theorem c1_algebra (A amb0 E : Vec3) (t : Light → Vec3) (l1 : Light) (ls : List Light) :
    ls.foldl (fun d l => Vec3.add d (Vec3.hmul A (t l)))
      (Vec3.add (Vec3.hmul A (Vec3.add amb0 (t l1))) E) =
    Vec3.add (Vec3.hmul A ((l1 :: ls).foldl (fun a l => Vec3.add a (t l))
      (Vec3.add Vec3.zero amb0))) E := by
  rw [List.foldl_cons, Vec3.zero_add, hmul_foldl]
  rw [Vec3.add_comm (Vec3.hmul A (Vec3.add amb0 (t l1))) E, foldl_add_shift]
  exact Vec3.add_comm _ _

/-- A populated light list, no light culled, shadows off, no normal map and
premultiplied albedo alpha 1: the multipass fold over the lights lands on the
same pixel value as the one singlepass draw. -/
theorem c1_core (m : MatUniforms) (f : FragIn) (mt : Vec3) (r : ℚ) (l1 : Light)
    (ls : List Light) (b : Bool) (fn : BlendFn) (cu : ℚ × ℚ) (vp : Mat4) (dst0 : Vec3)
    (h5 : (l1 :: ls).length ≤ 5)
    (hcull : ∀ l ∈ l1 :: ls, multipassLightDrawn mt r l = true)
    (hsh : ∀ l ∈ l1 :: ls, l.shadowmap = false)
    (hnm : m.u_has_normalmap ≠ 4)
    (hw : (Vec4.hmul m.u_color f.albedoSample).w = 1)
    (hfn : b = true → fn = .srcAlphaOneMinus) :
    ((l1 :: ls).foldl (mpStep mt r m f)
      ⟨m.u_ambient_light, m.u_emissive_factor, b, fn, cu, vp, dst0, []⟩).dst =
    drawPixel b fn dst0 (singleFragment m (singlepassUniforms (l1 :: ls)) f) := by
  by_cases hdis : (Vec4.hmul m.u_color f.albedoSample).w < m.u_alpha_cutoff
  · rw [mpFold_discard mt r m f hdis (l1 :: ls) _,
      singleFragment_discard m (singlepassUniforms (l1 :: ls)) f hdis]
    rfl
  · rw [singleFragment_eval m f (l1 :: ls) h5 hnm hdis]
    rw [List.foldl_cons]
    rw [mpStep_eval mt r m f ⟨m.u_ambient_light, m.u_emissive_factor, b, fn, cu, vp, dst0, []⟩
      l1 (hcull l1 (List.mem_cons_self l1 ls)) (hsh l1 (List.mem_cons_self l1 ls)) hnm hdis]
    dsimp only
    rw [mpFold_tail mt r m f hnm hw hdis ls
      (fun x hx => hcull x (List.mem_cons_of_mem l1 hx))
      (fun x hx => hsh x (List.mem_cons_of_mem l1 hx))]
    rw [blendPixel_one b fn dst0 _ _ _ _ hw hfn]
    show _ = blendPixel b fn dst0 _
    rw [blendPixel_one b fn dst0 _ _ _ _ hw hfn]
    exact c1_algebra (Vec4.hmul m.u_color f.albedoSample).xyz
      (Vec3.smul f.metallicSample.x m.u_ambient_light)
      (Vec3.hmul m.u_emissive_factor f.emissiveSample)
      (fun l => lightTermN (f.v_normal.normalize) f.v_world_position l) l1 ls

/-- C1 (amended): with the no-lights shader paths aside, the lit rendering
path produces the same final pixel for `is_multipass = true` and `false`
provided every light passes the multipass per-light box cull, at most
`MAX_LIGHTS = 5` lights are visible, no light has a bound shadowmap, the
material binds no normal texture and the premultiplied albedo alpha is 1.
The claim's unconditional equivalence is false: multipass culls per light
and iterates every visible light, singlepass neither culls nor shades
beyond the first five (see `c1_counterexample`). -/
theorem c1_amended (wf : Bool) (spr : ShaderProg → Bool) (nv : ℕ)
    (mat : Material) (mt : Vec3) (r : ℚ) (amb : Vec3) (lights : List Light)
    (f : FragIn) (gl0 : GLState) (dst0 : Vec3)
    (hnv : nv ≠ 0) (hspr : ∀ p, spr p = true)
    (h5 : lights.length ≤ 5)
    (hcull : ∀ l ∈ lights, multipassLightDrawn mt r l = true)
    (hsh : ∀ l ∈ lights, l.shadowmap = false)
    (hnm : mat.hasNormalTexture = false)
    (hw : (Vec4.hmul mat.color f.albedoSample).w = 1) :
    (renderMeshWithMaterialLight true wf spr nv mat mt r amb lights f gl0 dst0).dst =
    (renderMeshWithMaterialLight false wf spr nv mat mt r amb lights f gl0 dst0).dst := by
  cases lights with
  | nil =>
    unfold renderMeshWithMaterialLight
    rw [if_neg hnv, if_neg hnv]
    simp only [List.length_nil]
    split_ifs <;> rfl
  | cons l1 ls =>
    unfold renderMeshWithMaterialLight
    rw [if_neg hnv, if_neg hnv]
    dsimp only
    have hlen : ¬ ((l1 :: ls).length = 0) := by simp
    simp only [if_neg hlen, show ((true : Bool) = true) = True from by simp,
      show ((false : Bool) = true) = False from by simp, if_true, if_false]
    rw [if_neg (show ¬ ¬ (spr ShaderProg.light_multipass = true) from by simp [hspr])]
    rw [if_neg (show ¬ ¬ (spr ShaderProg.light_singlepass = true) from by simp [hspr])]
    dsimp only
    refine c1_core _ f mt r l1 ls _ _ _ _ dst0 h5 hcull hsh ?_ ?_ ?_
    · simp [hnm]
    · exact hw
    · intro hb
      rw [if_pos (of_decide_eq_true hb)]

/-- An opaque white material with no emissive and no normal texture. -/
def c1Mat : Material := ⟨⟨1, 1, 1, 1⟩, ⟨0, 0, 0⟩, .opaq, 1/2, false, false⟩

/-- A directional light 100 units away from the mesh along +X with falloff
radius 10: it fails the multipass box-vs-sphere cull (99 > 20) yet shades
fully in the singlepass program, which never culls. -/
def c1DirFar : Light :=
  ⟨.directional, false, ⟨100, 0, 0⟩, ⟨0, 0, 1⟩, ⟨1, 1, 1⟩, 1, 10, (30, 45), (3/4, 1/2), 2,
   1/1000, false, false, none, Mat4.id, 0⟩

/-- A point light 2 units above the fragment along +Z: it passes the
multipass cull sphere (distance 1 from the mesh box, radius 20). -/
def c1PtNear : Light :=
  ⟨.point, false, ⟨0, 0, 2⟩, ⟨0, 0, 1⟩, ⟨1, 1, 1⟩, 1, 10, (30, 45), (3/4, 1/2), 2,
   1/1000, false, false, none, Mat4.id, 0⟩

/-- C1 counterexample: with one distant directional light the multipass path
culls it (box test against the doubled falloff sphere fails) and leaves the
pixel black, while the singlepass path — which performs no per-light culling
— shades it: ambient 1·(1/2) plus diffuse 1 on every channel. -/
theorem c1_counterexample :
    (renderMeshWithMaterialLight true false (fun _ => true) 3 c1Mat ⟨0, 0, 0⟩ 1 ⟨1, 1, 1⟩
      [c1DirFar] c2Frag GLState.default ⟨0, 0, 0⟩).dst = ⟨0, 0, 0⟩ ∧
    (renderMeshWithMaterialLight false false (fun _ => true) 3 c1Mat ⟨0, 0, 0⟩ 1 ⟨1, 1, 1⟩
      [c1DirFar] c2Frag GLState.default ⟨0, 0, 0⟩).dst = ⟨3/2, 3/2, 3/2⟩ ∧
    ((⟨0, 0, 0⟩ : Vec3) ≠ ⟨3/2, 3/2, 3/2⟩) := by
  refine ⟨?_, ?_, ?_⟩
  · unfold renderMeshWithMaterialLight
    rw [if_neg (by norm_num : ¬ (3 = 0))]
    dsimp only
    rw [if_neg (show ¬ ([c1DirFar].length = 0) by simp)]
    rw [if_neg (by simp)]
    rw [if_neg (show ¬ ([c1DirFar].length = 0) by simp)]
    have hnd : multipassLightDrawn ⟨0, 0, 0⟩ 1 c1DirFar = false := by
      norm_num [multipassLightDrawn, BoundingBoxSphereOverlap, c1DirFar]
    simp only [List.foldl_cons, List.foldl_nil]
    unfold mpStep
    rw [hnd]
    simp only [Bool.false_eq_true, not_false_eq_true, if_true]
  · unfold renderMeshWithMaterialLight
    rw [if_neg (by norm_num : ¬ (3 = 0))]
    dsimp only
    rw [if_neg (show ¬ ([c1DirFar].length = 0) by simp)]
    rw [if_neg (by simp)]
    rw [if_neg (show ¬ ([c1DirFar].length = 0) by simp)]
    norm_num [singleFragment, singleLoopBody, singlepassUniforms, c1DirFar, c1Mat, c2Frag,
      drawPixel, blendPixel, GLState.default, List.range_succ, mkLightInfo, truncQ,
      LType.toInt, Vec4.hmul, Vec4.xyz, Vec3.add, Vec3.zero, Vec3.smul, Vec3.hmul,
      Vec3.normalize, Vec3.length, Vec3.dot, Vec3.sub, ratSqrt_one,
      show (AlphaMode.opaq = AlphaMode.mask) = False from by simp,
      show (AlphaMode.opaq = AlphaMode.blendA) = False from by simp]
  · norm_num [Vec3.mk.injEq]

/-- C1 witness: the amended equivalence at a concrete scene — one near point
light that passes the multipass cull, opaque white material, alpha 1. -/
theorem c1_witness :
    multipassLightDrawn ⟨0, 0, 0⟩ 1 c1PtNear = true ∧
    (Vec4.hmul c1Mat.color c2Frag.albedoSample).w = 1 ∧
    (renderMeshWithMaterialLight true false (fun _ => true) 3 c1Mat ⟨0, 0, 0⟩ 1 ⟨1, 1, 1⟩
      [c1PtNear] c2Frag GLState.default ⟨0, 0, 0⟩).dst =
    (renderMeshWithMaterialLight false false (fun _ => true) 3 c1Mat ⟨0, 0, 0⟩ 1 ⟨1, 1, 1⟩
      [c1PtNear] c2Frag GLState.default ⟨0, 0, 0⟩).dst := by
  have hd : multipassLightDrawn ⟨0, 0, 0⟩ 1 c1PtNear = true := by
    norm_num [multipassLightDrawn, BoundingBoxSphereOverlap, c1PtNear]
  have hw : (Vec4.hmul c1Mat.color c2Frag.albedoSample).w = 1 := by
    norm_num [c1Mat, c2Frag, Vec4.hmul]
  refine ⟨hd, hw, c1_amended false (fun _ => true) 3 c1Mat ⟨0, 0, 0⟩ 1 ⟨1, 1, 1⟩
    [c1PtNear] c2Frag GLState.default ⟨0, 0, 0⟩ (by norm_num) (fun p => rfl) (by simp)
    ?_ ?_ rfl hw⟩
  · intro l hl
    rw [List.mem_singleton] at hl
    subst hl
    exact hd
  · intro l hl
    rw [List.mem_singleton] at hl
    subst hl
    rfl

end GTR
